import Mathlib

/-!
Shallow embedding of the Box2D rope solver (`src/rope/b2_rope.cpp`) and proofs of
the specified properties.

Modelling conventions:
* `float` arithmetic is modelled by exact rational arithmetic (`ℚ`).
* The external math routines used by the rope code but defined outside this
  repository's rope source (`b2Atan2`, `sqrtf` inside `b2Vec2::Normalize` /
  `b2Distance`, `expf` from libm) are modelled as an abstract record `B2Math`
  of functions on `ℚ`; all theorems hold for every choice of these functions
  unless stated otherwise.
* The constant `b2_pi` (defined in `b2_common.h` as the float literal
  `3.14159265359f`) is modelled by the exact rational value of that literal
  rounded to single precision.
* Per-particle and per-constraint arrays are modelled as total functions
  `ℕ → _`.  Each whole-array loop in the C code writes every element of the
  array it updates, so such passes are modelled as pointwise updates at every
  index; the Gauss–Seidel constraint sweeps, whose in-place order matters, are
  modelled as left folds over `List.range`.
-/

/-- 2D vector over exact rationals, mirroring `b2Vec2`. -/
structure b2Vec2 where
  x : ℚ
  y : ℚ
deriving DecidableEq

/-- The zero vector (`b2Vec2::SetZero`). -/
def b2Vec2.zero : b2Vec2 := ⟨0, 0⟩

instance : Add b2Vec2 := ⟨fun a b => ⟨a.x + b.x, a.y + b.y⟩⟩

instance : Sub b2Vec2 := ⟨fun a b => ⟨a.x - b.x, a.y - b.y⟩⟩

instance : Neg b2Vec2 := ⟨fun a => ⟨-a.x, -a.y⟩⟩

instance : SMul ℚ b2Vec2 := ⟨fun c v => ⟨c * v.x, c * v.y⟩⟩

@[simp] theorem b2Vec2.add_x (a b : b2Vec2) : (a + b).x = a.x + b.x := rfl

@[simp] theorem b2Vec2.add_y (a b : b2Vec2) : (a + b).y = a.y + b.y := rfl

@[simp] theorem b2Vec2.sub_x (a b : b2Vec2) : (a - b).x = a.x - b.x := rfl

@[simp] theorem b2Vec2.sub_y (a b : b2Vec2) : (a - b).y = a.y - b.y := rfl

@[simp] theorem b2Vec2.neg_x (a : b2Vec2) : (-a).x = -a.x := rfl

@[simp] theorem b2Vec2.neg_y (a : b2Vec2) : (-a).y = -a.y := rfl

@[simp] theorem b2Vec2.smul_x (c : ℚ) (a : b2Vec2) : (c • a).x = c * a.x := rfl

@[simp] theorem b2Vec2.smul_y (c : ℚ) (a : b2Vec2) : (c • a).y = c * a.y := rfl

@[simp] theorem b2Vec2.zero_x : b2Vec2.zero.x = 0 := rfl

@[simp] theorem b2Vec2.zero_y : b2Vec2.zero.y = 0 := rfl

theorem b2Vec2.eq_iff (a b : b2Vec2) : a = b ↔ a.x = b.x ∧ a.y = b.y := by
  cases a; cases b; simp

/-- Dot product (`b2Dot`). -/
def b2Dot (a b : b2Vec2) : ℚ := a.x * b.x + a.y * b.y

/-- 2D cross product (`b2Cross`). -/
def b2Cross (a b : b2Vec2) : ℚ := a.x * b.y - a.y * b.x

/-- Counter-clockwise perpendicular (`b2Vec2::Skew`). -/
def b2Vec2.Skew (v : b2Vec2) : b2Vec2 := ⟨-v.y, v.x⟩

/-- Squared length (`b2Vec2::LengthSquared`). -/
def b2Vec2.LengthSquared (v : b2Vec2) : ℚ := v.x * v.x + v.y * v.y

/-- External math routines used by the rope code but implemented outside the
rope source (`b2Atan2` and square roots from `b2_math.h`, `expf` from libm).
They are modelled as abstract functions on `ℚ`; the rope algorithms are
parametric in them. -/
structure B2Math where
  atan2 : ℚ → ℚ → ℚ
  sqrt : ℚ → ℚ
  exp : ℚ → ℚ

/-- Modelled from the spec: `b2Vec2::Normalize` (from `b2_math.h`, not part of
the rope source).  It returns the vector's length and scales the vector to unit
length, guarding against (near-)zero length by leaving the vector unchanged and
returning length `0` — in exact arithmetic the epsilon guard becomes an exact
zero test.  The spec (§4.3/§7) describes this as forming the unit direction
`d̂ = d / L` with degenerate edges handled by a skip guard. -/
def b2Vec2.Normalize (M : B2Math) (v : b2Vec2) : b2Vec2 × ℚ :=
  let L := M.sqrt v.LengthSquared
  if L = 0 then (v, 0) else ((1 / L) • v, L)

/-- Modelled from the spec: `b2Distance` (from `b2_math.h`, not part of the
rope source) — the Euclidean distance between two points. -/
def b2DistanceQ (M : B2Math) (a b : b2Vec2) : ℚ := M.sqrt (a - b).LengthSquared

/-- The constant `b2_pi` from `b2_common.h`: the float literal `3.14159265359f`
read as the exact rational value of its single-precision rounding,
`13176795 / 2^22`. -/
def b2_pi : ℚ := 13176795 / 4194304

theorem b2_pi_pos : (0 : ℚ) < b2_pi := by norm_num [b2_pi]

/-- The bending-model selector.  Modelled from the spec (§3, §6): the enum
`b2BendingModel` (declared in `b2_rope.h`, not part of the rope source) offers
a no-bending option plus the three models the solver dispatches on. -/
inductive b2BendingModel where
  | b2_noBendingModel
  | b2_forceAngleBendingModel
  | b2_pbdAngleBendingModel
  | b2_xpbdAngleBendingModel
deriving DecidableEq

/-- Tuning parameters, mirroring the fields of `b2RopeTuning` that the rope
solver reads. -/
structure b2RopeTuning where
  damping : ℚ
  stretchStiffness : ℚ
  bendStiffness : ℚ
  bendHertz : ℚ
  bendDamping : ℚ
  bendingModel : b2BendingModel

/-- The rope state: the fields of `b2Rope`.  Arrays are total functions on
indices. -/
structure b2Rope where
  m_count : ℕ
  m_bindPositions : ℕ → b2Vec2
  m_ps : ℕ → b2Vec2
  m_p0s : ℕ → b2Vec2
  m_vs : ℕ → b2Vec2
  m_ims : ℕ → ℚ
  m_Ls : ℕ → ℚ
  m_as : ℕ → ℚ
  m_bendingLambdas : ℕ → ℚ
  m_stretchCount : ℕ
  m_bendCount : ℕ
  m_gravity : b2Vec2
  m_tuning : b2RopeTuning

/-- Initialization input, mirroring `b2RopeDef`. -/
structure b2RopeDef where
  vertices : ℕ → b2Vec2
  masses : ℕ → ℚ
  count : ℕ
  gravity : b2Vec2
  tuning : b2RopeTuning

/-!
## The angle-wrap loops

Every bend solver computes `C = angle - m_as[i]` and then runs

```
while (C > b2_pi)  { angle -= 2 * b2_pi; C = angle - m_as[i]; }
while (C < -b2_pi) { angle += 2.0f * b2_pi; C = angle - m_as[i]; }
```

These loops are modelled by the recursive functions `wrapDown` / `wrapUp`
below, together with `wrapDownCount` / `wrapUpCount` counting their iteration
numbers.
-/

/-- The first wrap loop: subtract `2·b2_pi` from `angle` while
`angle - rest > b2_pi`. -/
def wrapDown (rest angle : ℚ) : ℚ :=
  if h : angle - rest > b2_pi then wrapDown rest (angle - 2 * b2_pi) else angle
termination_by (⌈(angle - rest - b2_pi) / (2 * b2_pi)⌉).toNat
decreasing_by
  have hpi := b2_pi_pos
  have h2 : (0 : ℚ) < 2 * b2_pi := by linarith
  have key : ((angle - 2 * b2_pi) - rest - b2_pi) / (2 * b2_pi)
      = (angle - rest - b2_pi) / (2 * b2_pi) - 1 := by
    field_simp
    ring
  rw [key, Int.ceil_sub_one]
  have hx : 0 < (angle - rest - b2_pi) / (2 * b2_pi) :=
    div_pos (by linarith) h2
  have hc : 1 ≤ ⌈(angle - rest - b2_pi) / (2 * b2_pi)⌉ := Int.ceil_pos.mpr hx
  omega

/-- Number of iterations performed by the first wrap loop. -/
def wrapDownCount (rest angle : ℚ) : ℕ :=
  if h : angle - rest > b2_pi then wrapDownCount rest (angle - 2 * b2_pi) + 1 else 0
termination_by (⌈(angle - rest - b2_pi) / (2 * b2_pi)⌉).toNat
decreasing_by
  have hpi := b2_pi_pos
  have h2 : (0 : ℚ) < 2 * b2_pi := by linarith
  have key : ((angle - 2 * b2_pi) - rest - b2_pi) / (2 * b2_pi)
      = (angle - rest - b2_pi) / (2 * b2_pi) - 1 := by
    field_simp
    ring
  rw [key, Int.ceil_sub_one]
  have hx : 0 < (angle - rest - b2_pi) / (2 * b2_pi) :=
    div_pos (by linarith) h2
  have hc : 1 ≤ ⌈(angle - rest - b2_pi) / (2 * b2_pi)⌉ := Int.ceil_pos.mpr hx
  omega

/-- The second wrap loop: add `2·b2_pi` to `angle` while
`angle - rest < -b2_pi`. -/
def wrapUp (rest angle : ℚ) : ℚ :=
  if h : angle - rest < -b2_pi then wrapUp rest (angle + 2 * b2_pi) else angle
termination_by (⌈(rest - angle - b2_pi) / (2 * b2_pi)⌉).toNat
decreasing_by
  have hpi := b2_pi_pos
  have h2 : (0 : ℚ) < 2 * b2_pi := by linarith
  have key : (rest - (angle + 2 * b2_pi) - b2_pi) / (2 * b2_pi)
      = (rest - angle - b2_pi) / (2 * b2_pi) - 1 := by
    field_simp
    ring
  rw [key, Int.ceil_sub_one]
  have hx : 0 < (rest - angle - b2_pi) / (2 * b2_pi) :=
    div_pos (by linarith) h2
  have hc : 1 ≤ ⌈(rest - angle - b2_pi) / (2 * b2_pi)⌉ := Int.ceil_pos.mpr hx
  omega

/-- Number of iterations performed by the second wrap loop. -/
def wrapUpCount (rest angle : ℚ) : ℕ :=
  if h : angle - rest < -b2_pi then wrapUpCount rest (angle + 2 * b2_pi) + 1 else 0
termination_by (⌈(rest - angle - b2_pi) / (2 * b2_pi)⌉).toNat
decreasing_by
  have hpi := b2_pi_pos
  have h2 : (0 : ℚ) < 2 * b2_pi := by linarith
  have key : (rest - (angle + 2 * b2_pi) - b2_pi) / (2 * b2_pi)
      = (rest - angle - b2_pi) / (2 * b2_pi) - 1 := by
    field_simp
    ring
  rw [key, Int.ceil_sub_one]
  have hx : 0 < (rest - angle - b2_pi) / (2 * b2_pi) :=
    div_pos (by linarith) h2
  have hc : 1 ≤ ⌈(rest - angle - b2_pi) / (2 * b2_pi)⌉ := Int.ceil_pos.mpr hx
  omega

/-- Both wrap loops in source order: first the `C > π` loop, then the
`C < -π` loop. -/
def wrapAngle (rest angle : ℚ) : ℚ := wrapUp rest (wrapDown rest angle)

/-- Total number of wrap-loop iterations executed for a given measured angle
and rest angle. -/
def wrapIterations (rest angle : ℚ) : ℕ :=
  wrapDownCount rest angle + wrapUpCount rest (wrapDown rest angle)

/-!
## Shared per-triple bend computations

Each of the three bend solvers (`ApplyBendForces`, `SolveBend_PBD_Angle`,
`SolveBend_XPBD_Angle`) starts from the same per-triple quantities
(`d1, d2, L1sqr, L2sqr, J1, J2, J3, W`, the measured angle and the wrapped
constraint value `C`).  They are factored out as named definitions, read from
the current state `s` at bend index `i`.
-/

/-- `d1 = p2 - p1` for bend triple `i`. -/
def bendD1 (s : b2Rope) (i : ℕ) : b2Vec2 := s.m_ps (i + 1) - s.m_ps i

/-- `d2 = p3 - p2` for bend triple `i`. -/
def bendD2 (s : b2Rope) (i : ℕ) : b2Vec2 := s.m_ps (i + 2) - s.m_ps (i + 1)

/-- `L1sqr = d1.LengthSquared()`. -/
def bendL1sqr (s : b2Rope) (i : ℕ) : ℚ := (bendD1 s i).LengthSquared

/-- `L2sqr = d2.LengthSquared()`. -/
def bendL2sqr (s : b2Rope) (i : ℕ) : ℚ := (bendD2 s i).LengthSquared

/-- `Jd1 = (-1 / L1sqr) * d1.Skew()`. -/
def bendJd1 (s : b2Rope) (i : ℕ) : b2Vec2 := (-1 / bendL1sqr s i) • (bendD1 s i).Skew

/-- `Jd2 = (1 / L2sqr) * d2.Skew()`. -/
def bendJd2 (s : b2Rope) (i : ℕ) : b2Vec2 := (1 / bendL2sqr s i) • (bendD2 s i).Skew

/-- `J1 = -Jd1`. -/
def bendJ1 (s : b2Rope) (i : ℕ) : b2Vec2 := -(bendJd1 s i)

/-- `J2 = Jd1 - Jd2`. -/
def bendJ2 (s : b2Rope) (i : ℕ) : b2Vec2 := bendJd1 s i - bendJd2 s i

/-- `J3 = Jd2`. -/
def bendJ3 (s : b2Rope) (i : ℕ) : b2Vec2 := bendJd2 s i

/-- The effective inverse mass
`W = m1 * dot(J1,J1) + m2 * dot(J2,J2) + m3 * dot(J3,J3)` (called `mass`
in `SolveBend_PBD_Angle`). -/
def bendW (s : b2Rope) (i : ℕ) : ℚ :=
  s.m_ims i * b2Dot (bendJ1 s i) (bendJ1 s i)
    + s.m_ims (i + 1) * b2Dot (bendJ2 s i) (bendJ2 s i)
    + s.m_ims (i + 2) * b2Dot (bendJ3 s i) (bendJ3 s i)

/-- The measured turning angle `b2Atan2(b2Cross(d1, d2), b2Dot(d1, d2))`. -/
def bendAngle (M : B2Math) (s : b2Rope) (i : ℕ) : ℚ :=
  M.atan2 (b2Cross (bendD1 s i) (bendD2 s i)) (b2Dot (bendD1 s i) (bendD2 s i))

/-- The wrapped constraint value `C = angle - m_as[i]` after both wrap
loops. -/
def bendC (M : B2Math) (s : b2Rope) (i : ℕ) : ℚ :=
  wrapAngle (s.m_as i) (bendAngle M s i) - s.m_as i

/-- `omega = 2 * pi * hz`. -/
def bendOmega (s : b2Rope) : ℚ := 2 * b2_pi * s.m_tuning.bendHertz

/-- `spring = meff * omega * omega` where `meff = 1 / W`. -/
def bendSpring (s : b2Rope) (i : ℕ) : ℚ :=
  (1 / bendW s i) * bendOmega s * bendOmega s

/-- `damper = 2 * meff * bendDamping * omega` where `meff = 1 / W`. -/
def bendDamper (s : b2Rope) (i : ℕ) : ℚ :=
  2 * (1 / bendW s i) * s.m_tuning.bendDamping * bendOmega s

/-- `Cdot = dot(J1, v1) + dot(J2, v2) + dot(J3, v3)`. -/
def bendCdot (s : b2Rope) (i : ℕ) : ℚ :=
  b2Dot (bendJ1 s i) (s.m_vs i)
    + b2Dot (bendJ2 s i) (s.m_vs (i + 1))
    + b2Dot (bendJ3 s i) (s.m_vs (i + 2))

/-- XPBD compliance `alpha = 1 / (spring * dt * dt)`. -/
def xpbdAlpha (s : b2Rope) (dt : ℚ) (i : ℕ) : ℚ :=
  1 / (bendSpring s i * dt * dt)

/-- XPBD damping term `beta = dt * dt * damper`. -/
def xpbdBeta (s : b2Rope) (dt : ℚ) (i : ℕ) : ℚ := dt * dt * bendDamper s i

/-- XPBD right-hand side `B = C + alpha * lambda + alpha * beta * Cdot`. -/
def xpbdB (M : B2Math) (s : b2Rope) (dt : ℚ) (i : ℕ) : ℚ :=
  bendC M s i + xpbdAlpha s dt i * s.m_bendingLambdas i
    + xpbdAlpha s dt i * xpbdBeta s dt i * bendCdot s i

/-- XPBD denominator `Ws = (1 + alpha * beta / dt) * W + alpha`. -/
def xpbdWs (s : b2Rope) (dt : ℚ) (i : ℕ) : ℚ :=
  (1 + xpbdAlpha s dt i * xpbdBeta s dt i / dt) * bendW s i + xpbdAlpha s dt i

/-- XPBD impulse `-B / Ws`. -/
def xpbdImpulse (M : B2Math) (s : b2Rope) (dt : ℚ) (i : ℕ) : ℚ :=
  -(xpbdB M s dt i) / xpbdWs s dt i

/-- Write two array entries at indices `i` and `j` (the two stores at the end
of the stretch loop body). -/
def setIdx2 (f : ℕ → b2Vec2) (i j : ℕ) (a b : b2Vec2) : ℕ → b2Vec2 :=
  fun t => if t = i then a else if t = j then b else f t

/-- Write three array entries at indices `i`, `i+1`, `i+2` (the three stores at
the end of a bend loop body). -/
def setIdx3 (f : ℕ → b2Vec2) (i : ℕ) (a b c : b2Vec2) : ℕ → b2Vec2 :=
  fun t => if t = i then a else if t = i + 1 then b else if t = i + 2 then c else f t

/-!
## The solvers
-/

/-- One iteration of the loop body of `b2Rope::SolveStretch` at stretch
index `i`. -/
def SolveStretchBody (M : B2Math) (s : b2Rope) (i : ℕ) : b2Rope :=
  let k2 := s.m_tuning.stretchStiffness
  let p1 := s.m_ps i
  let p2 := s.m_ps (i + 1)
  let dL := (p2 - p1).Normalize M
  let d := dL.1
  let L := dL.2
  let im1 := s.m_ims i
  let im2 := s.m_ims (i + 1)
  if im1 + im2 = 0 then s
  else
    let s1 := im1 / (im1 + im2)
    let s2 := im2 / (im1 + im2)
    let p1' := p1 - (k2 * s1 * (s.m_Ls i - L)) • d
    let p2' := p2 + (k2 * s2 * (s.m_Ls i - L)) • d
    { s with m_ps := setIdx2 s.m_ps i (i + 1) p1' p2' }

/-- `b2Rope::SolveStretch`: one Gauss–Seidel sweep over all stretch
constraints. -/
def SolveStretch (M : B2Math) (s : b2Rope) : b2Rope :=
  (List.range s.m_stretchCount).foldl (SolveStretchBody M) s

/-- One iteration of the loop body of `b2Rope::SolveBend_PBD_Angle` at bend
index `i`. -/
def SolveBend_PBD_AngleBody (M : B2Math) (s : b2Rope) (i : ℕ) : b2Rope :=
  if bendL1sqr s i * bendL2sqr s i = 0 then s
  else if bendW s i = 0 then s
  else
    let impulse := -s.m_tuning.bendStiffness * (1 / bendW s i) * bendC M s i
    let p1 := s.m_ps i + (s.m_ims i * impulse) • bendJ1 s i
    let p2 := s.m_ps (i + 1) + (s.m_ims (i + 1) * impulse) • bendJ2 s i
    let p3 := s.m_ps (i + 2) + (s.m_ims (i + 2) * impulse) • bendJ3 s i
    { s with m_ps := setIdx3 s.m_ps i p1 p2 p3 }

/-- `b2Rope::SolveBend_PBD_Angle`: one Gauss–Seidel sweep over all bend
constraints. -/
def SolveBend_PBD_Angle (M : B2Math) (s : b2Rope) : b2Rope :=
  (List.range s.m_bendCount).foldl (SolveBend_PBD_AngleBody M) s

/-- One iteration of the loop body of `b2Rope::SolveBend_XPBD_Angle` at bend
index `i`. -/
def SolveBend_XPBD_AngleBody (M : B2Math) (dt : ℚ) (s : b2Rope) (i : ℕ) : b2Rope :=
  if bendL1sqr s i * bendL2sqr s i = 0 then s
  else if bendW s i = 0 then s
  else
    let impulse := xpbdImpulse M s dt i
    let p1 := s.m_ps i + (s.m_ims i * impulse) • bendJ1 s i
    let p2 := s.m_ps (i + 1) + (s.m_ims (i + 1) * impulse) • bendJ2 s i
    let p3 := s.m_ps (i + 2) + (s.m_ims (i + 2) * impulse) • bendJ3 s i
    { s with
      m_ps := setIdx3 s.m_ps i p1 p2 p3,
      m_bendingLambdas := fun j =>
        if j = i then s.m_bendingLambdas i + impulse else s.m_bendingLambdas j }

/-- `b2Rope::SolveBend_XPBD_Angle`: one Gauss–Seidel sweep over all bend
constraints. -/
def SolveBend_XPBD_Angle (M : B2Math) (s : b2Rope) (dt : ℚ) : b2Rope :=
  (List.range s.m_bendCount).foldl (SolveBend_XPBD_AngleBody M dt) s

/-- One iteration of the loop body of `b2Rope::ApplyBendForces` at bend
index `i`: the continuous spring–damper force applied to velocities. -/
def ApplyBendForcesBody (M : B2Math) (dt : ℚ) (s : b2Rope) (i : ℕ) : b2Rope :=
  if bendL1sqr s i * bendL2sqr s i = 0 then s
  else if bendW s i = 0 then s
  else
    let impulse := -dt * (bendSpring s i * bendC M s i + bendDamper s i * bendCdot s i)
    let v1 := s.m_vs i + (s.m_ims i * impulse) • bendJ1 s i
    let v2 := s.m_vs (i + 1) + (s.m_ims (i + 1) * impulse) • bendJ2 s i
    let v3 := s.m_vs (i + 2) + (s.m_ims (i + 2) * impulse) • bendJ3 s i
    { s with m_vs := setIdx3 s.m_vs i v1 v2 v3 }

/-- `b2Rope::ApplyBendForces`: a sweep over `count3 = m_count - 2` bend
triples, mutating velocities only. -/
def ApplyBendForces (M : B2Math) (s : b2Rope) (dt : ℚ) : b2Rope :=
  (List.range (s.m_count - 2)).foldl (ApplyBendForcesBody M dt) s

/-- `b2Rope::SetAngle`: overwrite every bend rest angle with the given
value (the loop writes all `m_bendCount` entries of `m_as`). -/
def SetAngle (s : b2Rope) (angle : ℚ) : b2Rope :=
  { s with m_as := fun _ => angle }

/-- `b2Rope::SetTuning`. -/
def SetTuning (s : b2Rope) (tuning : b2RopeTuning) : b2Rope :=
  { s with m_tuning := tuning }

/-!
## `b2Rope::Step`

The step is decomposed into its phases, in source order.
-/

/-- Phase 1 of `Step`: velocity prediction.  Dynamic particles
(`m_ims[i] > 0`) get gravity plus exponential damping
(`v += dt * gravity; v *= expf(-dt * damping)`); kinematic particles are
driven: `v = inv_dt * (bind + position - p0)`. -/
def predictVelocities (M : B2Math) (s : b2Rope) (dt : ℚ) (position : b2Vec2) : b2Rope :=
  let inv_dt := 1 / dt
  let d := M.exp (-dt * s.m_tuning.damping)
  { s with m_vs := fun i =>
      if s.m_ims i > 0 then d • (s.m_vs i + dt • s.m_gravity)
      else inv_dt • (s.m_bindPositions i + position - s.m_p0s i) }

/-- Phase 3 of `Step`: explicit Euler position integration
`p += dt * v`. -/
def integratePositions (s : b2Rope) (dt : ℚ) : b2Rope :=
  { s with m_ps := fun i => s.m_ps i + dt • s.m_vs i }

/-- Phase 4 of `Step`: reset every bend Lagrange multiplier to zero (the loop
writes all `m_bendCount` entries of `m_bendingLambdas`). -/
def resetBendLambdas (s : b2Rope) : b2Rope :=
  { s with m_bendingLambdas := fun _ => 0 }

/-- The body of the iteration loop of `Step`: dispatch on the bending model
(PBD or XPBD position solvers; nothing for the other models), then always run
the stretch solver. -/
def solveOnce (M : B2Math) (s : b2Rope) (dt : ℚ) : b2Rope :=
  let s1 :=
    if s.m_tuning.bendingModel = b2BendingModel.b2_pbdAngleBendingModel then
      SolveBend_PBD_Angle M s
    else if s.m_tuning.bendingModel = b2BendingModel.b2_xpbdAngleBendingModel then
      SolveBend_XPBD_Angle M s dt
    else s
  SolveStretch M s1

/-- Phase 5 of `Step`: the iteration loop, running `solveOnce` exactly
`iterations` times. -/
def solveLoop (M : B2Math) (s : b2Rope) (dt : ℚ) (iterations : ℕ) : b2Rope :=
  (List.range iterations).foldl (fun t _ => solveOnce M t dt) s

/-- Phase 6 of `Step`: velocity reconstruction `v = inv_dt * (p - p0)` and
`p0 = p`. -/
def reconstructVelocities (s : b2Rope) (dt : ℚ) : b2Rope :=
  { s with
    m_vs := fun i => (1 / dt) • (s.m_ps i - s.m_p0s i),
    m_p0s := fun i => s.m_ps i }

/-- `b2Rope::Step(dt, iterations, position)`: a no-op when `dt == 0`,
otherwise the six phases in source order (with `ApplyBendForces` run between
phases 1 and 3 exactly when the continuous-force bending model is
selected). -/
def Step (M : B2Math) (s : b2Rope) (dt : ℚ) (iterations : ℕ) (position : b2Vec2) : b2Rope :=
  if dt = 0 then s
  else
    let s1 := predictVelocities M s dt position
    let s2 :=
      if s1.m_tuning.bendingModel = b2BendingModel.b2_forceAngleBendingModel then
        ApplyBendForces M s1 dt
      else s1
    let s3 := integratePositions s2 dt
    let s4 := resetBendLambdas s3
    let s5 := solveLoop M s4 dt iterations
    reconstructVelocities s5 dt

/-!
## Initialization
-/

/-- The unconditional construction performed by `b2Rope::Initialize` once the
count precondition holds: copy vertices into `m_bindPositions`, `m_ps`,
`m_p0s`, zero velocities, convert masses to inverse masses, capture stretch
rest lengths and bend rest angles from the initial shape, and zero the bend
multipliers. -/
def initializeCore (M : B2Math) (d : b2RopeDef) : b2Rope :=
  { m_count := d.count
    m_bindPositions := fun i => d.vertices i
    m_ps := fun i => d.vertices i
    m_p0s := fun i => d.vertices i
    m_vs := fun _ => b2Vec2.zero
    m_ims := fun i => if d.masses i > 0 then 1 / d.masses i else 0
    m_stretchCount := d.count - 1
    m_bendCount := d.count - 2
    m_Ls := fun i => b2DistanceQ M (d.vertices i) (d.vertices (i + 1))
    m_as := fun i =>
      M.atan2
        (b2Cross (d.vertices (i + 1) - d.vertices i) (d.vertices (i + 2) - d.vertices (i + 1)))
        (b2Dot (d.vertices (i + 1) - d.vertices i) (d.vertices (i + 2) - d.vertices (i + 1)))
    m_bendingLambdas := fun _ => 0
    m_gravity := d.gravity
    m_tuning := d.tuning }

/-- `b2Rope::Initialize`: the precondition `b2Assert(def->count >= 3)` is
modelled as an invalid-argument failure; with at least three vertices the rope
is constructed by `initializeCore`. -/
def Initialize (M : B2Math) (d : b2RopeDef) : Except String b2Rope :=
  if d.count < 3 then Except.error "invalid argument: count must be at least 3"
  else Except.ok (initializeCore M d)

/-!
## Helper lemmas: vectors, folds, and frame conditions
-/

theorem b2Vec2.sub_zero_smul (p d : b2Vec2) : p - (0 : ℚ) • d = p := by
  rw [b2Vec2.eq_iff]; simp

theorem b2Vec2.add_zero_smul (p d : b2Vec2) : p + (0 : ℚ) • d = p := by
  rw [b2Vec2.eq_iff]; simp

/-- Generic preservation of a projected field by a left fold. -/
theorem foldl_fieldPres {α β : Type} (f : b2Rope → α → b2Rope) (proj : b2Rope → β)
    (h : ∀ t a, proj (f t a) = proj t) :
    ∀ (l : List α) (s : b2Rope), proj (List.foldl f s l) = proj s := by
  intro l
  induction l with
  | nil => intro s; rfl
  | cons a l ih => intro s; rw [List.foldl_cons, ih, h]

/-- Generic invariant preservation by a left fold. -/
theorem foldl_inv {α : Type} (f : b2Rope → α → b2Rope) (P : b2Rope → Prop)
    (h : ∀ t a, P t → P (f t a)) :
    ∀ (l : List α) (s : b2Rope), P s → P (List.foldl f s l) := by
  intro l
  induction l with
  | nil => intro s hs; exact hs
  | cons a l ih => intro s hs; exact ih _ (h _ _ hs)

@[simp] theorem SolveStretchBody_ims (M : B2Math) (s : b2Rope) (i : ℕ) :
    (SolveStretchBody M s i).m_ims = s.m_ims := by
  simp only [SolveStretchBody]; split <;> rfl

@[simp] theorem SolveStretchBody_vs (M : B2Math) (s : b2Rope) (i : ℕ) :
    (SolveStretchBody M s i).m_vs = s.m_vs := by
  simp only [SolveStretchBody]; split <;> rfl

@[simp] theorem SolveStretchBody_p0s (M : B2Math) (s : b2Rope) (i : ℕ) :
    (SolveStretchBody M s i).m_p0s = s.m_p0s := by
  simp only [SolveStretchBody]; split <;> rfl

@[simp] theorem SolveStretchBody_Ls (M : B2Math) (s : b2Rope) (i : ℕ) :
    (SolveStretchBody M s i).m_Ls = s.m_Ls := by
  simp only [SolveStretchBody]; split <;> rfl

@[simp] theorem SolveStretchBody_as (M : B2Math) (s : b2Rope) (i : ℕ) :
    (SolveStretchBody M s i).m_as = s.m_as := by
  simp only [SolveStretchBody]; split <;> rfl

@[simp] theorem SolveStretchBody_binds (M : B2Math) (s : b2Rope) (i : ℕ) :
    (SolveStretchBody M s i).m_bindPositions = s.m_bindPositions := by
  simp only [SolveStretchBody]; split <;> rfl

@[simp] theorem SolveStretchBody_lambdas (M : B2Math) (s : b2Rope) (i : ℕ) :
    (SolveStretchBody M s i).m_bendingLambdas = s.m_bendingLambdas := by
  simp only [SolveStretchBody]; split <;> rfl

@[simp] theorem SolveStretchBody_tuning (M : B2Math) (s : b2Rope) (i : ℕ) :
    (SolveStretchBody M s i).m_tuning = s.m_tuning := by
  simp only [SolveStretchBody]; split <;> rfl

@[simp] theorem SolveStretchBody_counts (M : B2Math) (s : b2Rope) (i : ℕ) :
    (SolveStretchBody M s i).m_count = s.m_count
      ∧ (SolveStretchBody M s i).m_stretchCount = s.m_stretchCount
      ∧ (SolveStretchBody M s i).m_bendCount = s.m_bendCount := by
  simp only [SolveStretchBody]; split <;> exact ⟨rfl, rfl, rfl⟩

@[simp] theorem SolveBend_PBD_AngleBody_ims (M : B2Math) (s : b2Rope) (i : ℕ) :
    (SolveBend_PBD_AngleBody M s i).m_ims = s.m_ims := by
  simp only [SolveBend_PBD_AngleBody]; split <;> try rfl
  split <;> rfl

@[simp] theorem SolveBend_PBD_AngleBody_vs (M : B2Math) (s : b2Rope) (i : ℕ) :
    (SolveBend_PBD_AngleBody M s i).m_vs = s.m_vs := by
  simp only [SolveBend_PBD_AngleBody]; split <;> try rfl
  split <;> rfl

@[simp] theorem SolveBend_PBD_AngleBody_p0s (M : B2Math) (s : b2Rope) (i : ℕ) :
    (SolveBend_PBD_AngleBody M s i).m_p0s = s.m_p0s := by
  simp only [SolveBend_PBD_AngleBody]; split <;> try rfl
  split <;> rfl

@[simp] theorem SolveBend_PBD_AngleBody_Ls (M : B2Math) (s : b2Rope) (i : ℕ) :
    (SolveBend_PBD_AngleBody M s i).m_Ls = s.m_Ls := by
  simp only [SolveBend_PBD_AngleBody]; split <;> try rfl
  split <;> rfl

@[simp] theorem SolveBend_PBD_AngleBody_as (M : B2Math) (s : b2Rope) (i : ℕ) :
    (SolveBend_PBD_AngleBody M s i).m_as = s.m_as := by
  simp only [SolveBend_PBD_AngleBody]; split <;> try rfl
  split <;> rfl

@[simp] theorem SolveBend_PBD_AngleBody_binds (M : B2Math) (s : b2Rope) (i : ℕ) :
    (SolveBend_PBD_AngleBody M s i).m_bindPositions = s.m_bindPositions := by
  simp only [SolveBend_PBD_AngleBody]; split <;> try rfl
  split <;> rfl

@[simp] theorem SolveBend_PBD_AngleBody_lambdas (M : B2Math) (s : b2Rope) (i : ℕ) :
    (SolveBend_PBD_AngleBody M s i).m_bendingLambdas = s.m_bendingLambdas := by
  simp only [SolveBend_PBD_AngleBody]; split <;> try rfl
  split <;> rfl

@[simp] theorem SolveBend_PBD_AngleBody_tuning (M : B2Math) (s : b2Rope) (i : ℕ) :
    (SolveBend_PBD_AngleBody M s i).m_tuning = s.m_tuning := by
  simp only [SolveBend_PBD_AngleBody]; split <;> try rfl
  split <;> rfl

@[simp] theorem ApplyBendForcesBody_ims (M : B2Math) (dt : ℚ) (s : b2Rope) (i : ℕ) :
    (ApplyBendForcesBody M dt s i).m_ims = s.m_ims := by
  simp only [ApplyBendForcesBody]; split <;> try rfl
  split <;> rfl

@[simp] theorem ApplyBendForcesBody_ps (M : B2Math) (dt : ℚ) (s : b2Rope) (i : ℕ) :
    (ApplyBendForcesBody M dt s i).m_ps = s.m_ps := by
  simp only [ApplyBendForcesBody]; split <;> try rfl
  split <;> rfl

@[simp] theorem ApplyBendForcesBody_p0s (M : B2Math) (dt : ℚ) (s : b2Rope) (i : ℕ) :
    (ApplyBendForcesBody M dt s i).m_p0s = s.m_p0s := by
  simp only [ApplyBendForcesBody]; split <;> try rfl
  split <;> rfl

@[simp] theorem ApplyBendForcesBody_Ls (M : B2Math) (dt : ℚ) (s : b2Rope) (i : ℕ) :
    (ApplyBendForcesBody M dt s i).m_Ls = s.m_Ls := by
  simp only [ApplyBendForcesBody]; split <;> try rfl
  split <;> rfl

@[simp] theorem ApplyBendForcesBody_as (M : B2Math) (dt : ℚ) (s : b2Rope) (i : ℕ) :
    (ApplyBendForcesBody M dt s i).m_as = s.m_as := by
  simp only [ApplyBendForcesBody]; split <;> try rfl
  split <;> rfl

@[simp] theorem ApplyBendForcesBody_binds (M : B2Math) (dt : ℚ) (s : b2Rope) (i : ℕ) :
    (ApplyBendForcesBody M dt s i).m_bindPositions = s.m_bindPositions := by
  simp only [ApplyBendForcesBody]; split <;> try rfl
  split <;> rfl

@[simp] theorem ApplyBendForcesBody_lambdas (M : B2Math) (dt : ℚ) (s : b2Rope) (i : ℕ) :
    (ApplyBendForcesBody M dt s i).m_bendingLambdas = s.m_bendingLambdas := by
  simp only [ApplyBendForcesBody]; split <;> try rfl
  split <;> rfl

@[simp] theorem ApplyBendForcesBody_tuning (M : B2Math) (dt : ℚ) (s : b2Rope) (i : ℕ) :
    (ApplyBendForcesBody M dt s i).m_tuning = s.m_tuning := by
  simp only [ApplyBendForcesBody]; split <;> try rfl
  split <;> rfl

@[simp] theorem SolveBend_XPBD_AngleBody_ims (M : B2Math) (dt : ℚ) (s : b2Rope) (i : ℕ) :
    (SolveBend_XPBD_AngleBody M dt s i).m_ims = s.m_ims := by
  simp only [SolveBend_XPBD_AngleBody]; split <;> try rfl
  split <;> rfl

@[simp] theorem SolveBend_XPBD_AngleBody_vs (M : B2Math) (dt : ℚ) (s : b2Rope) (i : ℕ) :
    (SolveBend_XPBD_AngleBody M dt s i).m_vs = s.m_vs := by
  simp only [SolveBend_XPBD_AngleBody]; split <;> try rfl
  split <;> rfl

@[simp] theorem SolveBend_XPBD_AngleBody_p0s (M : B2Math) (dt : ℚ) (s : b2Rope) (i : ℕ) :
    (SolveBend_XPBD_AngleBody M dt s i).m_p0s = s.m_p0s := by
  simp only [SolveBend_XPBD_AngleBody]; split <;> try rfl
  split <;> rfl

@[simp] theorem SolveBend_XPBD_AngleBody_Ls (M : B2Math) (dt : ℚ) (s : b2Rope) (i : ℕ) :
    (SolveBend_XPBD_AngleBody M dt s i).m_Ls = s.m_Ls := by
  simp only [SolveBend_XPBD_AngleBody]; split <;> try rfl
  split <;> rfl

@[simp] theorem SolveBend_XPBD_AngleBody_as (M : B2Math) (dt : ℚ) (s : b2Rope) (i : ℕ) :
    (SolveBend_XPBD_AngleBody M dt s i).m_as = s.m_as := by
  simp only [SolveBend_XPBD_AngleBody]; split <;> try rfl
  split <;> rfl

@[simp] theorem SolveBend_XPBD_AngleBody_binds (M : B2Math) (dt : ℚ) (s : b2Rope) (i : ℕ) :
    (SolveBend_XPBD_AngleBody M dt s i).m_bindPositions = s.m_bindPositions := by
  simp only [SolveBend_XPBD_AngleBody]; split <;> try rfl
  split <;> rfl

@[simp] theorem SolveBend_XPBD_AngleBody_tuning (M : B2Math) (dt : ℚ) (s : b2Rope) (i : ℕ) :
    (SolveBend_XPBD_AngleBody M dt s i).m_tuning = s.m_tuning := by
  simp only [SolveBend_XPBD_AngleBody]; split <;> try rfl
  split <;> rfl

@[simp] theorem SolveBend_PBD_AngleBody_counts (M : B2Math) (s : b2Rope) (i : ℕ) :
    (SolveBend_PBD_AngleBody M s i).m_count = s.m_count
      ∧ (SolveBend_PBD_AngleBody M s i).m_stretchCount = s.m_stretchCount
      ∧ (SolveBend_PBD_AngleBody M s i).m_bendCount = s.m_bendCount := by
  simp only [SolveBend_PBD_AngleBody]; split <;> try exact ⟨rfl, rfl, rfl⟩
  split <;> exact ⟨rfl, rfl, rfl⟩

@[simp] theorem SolveBend_XPBD_AngleBody_counts (M : B2Math) (dt : ℚ) (s : b2Rope) (i : ℕ) :
    (SolveBend_XPBD_AngleBody M dt s i).m_count = s.m_count
      ∧ (SolveBend_XPBD_AngleBody M dt s i).m_stretchCount = s.m_stretchCount
      ∧ (SolveBend_XPBD_AngleBody M dt s i).m_bendCount = s.m_bendCount := by
  simp only [SolveBend_XPBD_AngleBody]; split <;> try exact ⟨rfl, rfl, rfl⟩
  split <;> exact ⟨rfl, rfl, rfl⟩

@[simp] theorem ApplyBendForcesBody_counts (M : B2Math) (dt : ℚ) (s : b2Rope) (i : ℕ) :
    (ApplyBendForcesBody M dt s i).m_count = s.m_count
      ∧ (ApplyBendForcesBody M dt s i).m_stretchCount = s.m_stretchCount
      ∧ (ApplyBendForcesBody M dt s i).m_bendCount = s.m_bendCount := by
  simp only [ApplyBendForcesBody]; split <;> try exact ⟨rfl, rfl, rfl⟩
  split <;> exact ⟨rfl, rfl, rfl⟩

@[simp] theorem SolveStretch_ims (M : B2Math) (s : b2Rope) :
    (SolveStretch M s).m_ims = s.m_ims :=
  foldl_fieldPres _ (fun t => t.m_ims) (fun t a => SolveStretchBody_ims M t a) _ s

@[simp] theorem SolveStretch_vs (M : B2Math) (s : b2Rope) :
    (SolveStretch M s).m_vs = s.m_vs :=
  foldl_fieldPres _ (fun t => t.m_vs) (fun t a => SolveStretchBody_vs M t a) _ s

@[simp] theorem SolveStretch_p0s (M : B2Math) (s : b2Rope) :
    (SolveStretch M s).m_p0s = s.m_p0s :=
  foldl_fieldPres _ (fun t => t.m_p0s) (fun t a => SolveStretchBody_p0s M t a) _ s

@[simp] theorem SolveStretch_Ls (M : B2Math) (s : b2Rope) :
    (SolveStretch M s).m_Ls = s.m_Ls :=
  foldl_fieldPres _ (fun t => t.m_Ls) (fun t a => SolveStretchBody_Ls M t a) _ s

@[simp] theorem SolveStretch_as (M : B2Math) (s : b2Rope) :
    (SolveStretch M s).m_as = s.m_as :=
  foldl_fieldPres _ (fun t => t.m_as) (fun t a => SolveStretchBody_as M t a) _ s

@[simp] theorem SolveStretch_binds (M : B2Math) (s : b2Rope) :
    (SolveStretch M s).m_bindPositions = s.m_bindPositions :=
  foldl_fieldPres _ (fun t => t.m_bindPositions) (fun t a => SolveStretchBody_binds M t a) _ s

@[simp] theorem SolveStretch_tuning (M : B2Math) (s : b2Rope) :
    (SolveStretch M s).m_tuning = s.m_tuning :=
  foldl_fieldPres _ (fun t => t.m_tuning) (fun t a => SolveStretchBody_tuning M t a) _ s

@[simp] theorem SolveStretch_lambdas (M : B2Math) (s : b2Rope) :
    (SolveStretch M s).m_bendingLambdas = s.m_bendingLambdas :=
  foldl_fieldPres _ (fun t => t.m_bendingLambdas) (fun t a => SolveStretchBody_lambdas M t a) _ s

@[simp] theorem SolveBend_PBD_Angle_ims (M : B2Math) (s : b2Rope) :
    (SolveBend_PBD_Angle M s).m_ims = s.m_ims :=
  foldl_fieldPres _ (fun t => t.m_ims) (fun t a => SolveBend_PBD_AngleBody_ims M t a) _ s

@[simp] theorem SolveBend_PBD_Angle_vs (M : B2Math) (s : b2Rope) :
    (SolveBend_PBD_Angle M s).m_vs = s.m_vs :=
  foldl_fieldPres _ (fun t => t.m_vs) (fun t a => SolveBend_PBD_AngleBody_vs M t a) _ s

@[simp] theorem SolveBend_PBD_Angle_p0s (M : B2Math) (s : b2Rope) :
    (SolveBend_PBD_Angle M s).m_p0s = s.m_p0s :=
  foldl_fieldPres _ (fun t => t.m_p0s) (fun t a => SolveBend_PBD_AngleBody_p0s M t a) _ s

@[simp] theorem SolveBend_PBD_Angle_Ls (M : B2Math) (s : b2Rope) :
    (SolveBend_PBD_Angle M s).m_Ls = s.m_Ls :=
  foldl_fieldPres _ (fun t => t.m_Ls) (fun t a => SolveBend_PBD_AngleBody_Ls M t a) _ s

@[simp] theorem SolveBend_PBD_Angle_as (M : B2Math) (s : b2Rope) :
    (SolveBend_PBD_Angle M s).m_as = s.m_as :=
  foldl_fieldPres _ (fun t => t.m_as) (fun t a => SolveBend_PBD_AngleBody_as M t a) _ s

@[simp] theorem SolveBend_PBD_Angle_binds (M : B2Math) (s : b2Rope) :
    (SolveBend_PBD_Angle M s).m_bindPositions = s.m_bindPositions :=
  foldl_fieldPres _ (fun t => t.m_bindPositions) (fun t a => SolveBend_PBD_AngleBody_binds M t a) _ s

@[simp] theorem SolveBend_PBD_Angle_tuning (M : B2Math) (s : b2Rope) :
    (SolveBend_PBD_Angle M s).m_tuning = s.m_tuning :=
  foldl_fieldPres _ (fun t => t.m_tuning) (fun t a => SolveBend_PBD_AngleBody_tuning M t a) _ s

@[simp] theorem SolveBend_PBD_Angle_lambdas (M : B2Math) (s : b2Rope) :
    (SolveBend_PBD_Angle M s).m_bendingLambdas = s.m_bendingLambdas :=
  foldl_fieldPres _ (fun t => t.m_bendingLambdas) (fun t a => SolveBend_PBD_AngleBody_lambdas M t a) _ s

@[simp] theorem SolveBend_XPBD_Angle_ims (M : B2Math) (s : b2Rope) (dt : ℚ) :
    (SolveBend_XPBD_Angle M s dt).m_ims = s.m_ims :=
  foldl_fieldPres _ (fun t => t.m_ims) (fun t a => SolveBend_XPBD_AngleBody_ims M dt t a) _ s

@[simp] theorem SolveBend_XPBD_Angle_vs (M : B2Math) (s : b2Rope) (dt : ℚ) :
    (SolveBend_XPBD_Angle M s dt).m_vs = s.m_vs :=
  foldl_fieldPres _ (fun t => t.m_vs) (fun t a => SolveBend_XPBD_AngleBody_vs M dt t a) _ s

@[simp] theorem SolveBend_XPBD_Angle_p0s (M : B2Math) (s : b2Rope) (dt : ℚ) :
    (SolveBend_XPBD_Angle M s dt).m_p0s = s.m_p0s :=
  foldl_fieldPres _ (fun t => t.m_p0s) (fun t a => SolveBend_XPBD_AngleBody_p0s M dt t a) _ s

@[simp] theorem SolveBend_XPBD_Angle_Ls (M : B2Math) (s : b2Rope) (dt : ℚ) :
    (SolveBend_XPBD_Angle M s dt).m_Ls = s.m_Ls :=
  foldl_fieldPres _ (fun t => t.m_Ls) (fun t a => SolveBend_XPBD_AngleBody_Ls M dt t a) _ s

@[simp] theorem SolveBend_XPBD_Angle_as (M : B2Math) (s : b2Rope) (dt : ℚ) :
    (SolveBend_XPBD_Angle M s dt).m_as = s.m_as :=
  foldl_fieldPres _ (fun t => t.m_as) (fun t a => SolveBend_XPBD_AngleBody_as M dt t a) _ s

@[simp] theorem SolveBend_XPBD_Angle_binds (M : B2Math) (s : b2Rope) (dt : ℚ) :
    (SolveBend_XPBD_Angle M s dt).m_bindPositions = s.m_bindPositions :=
  foldl_fieldPres _ (fun t => t.m_bindPositions) (fun t a => SolveBend_XPBD_AngleBody_binds M dt t a) _ s

@[simp] theorem SolveBend_XPBD_Angle_tuning (M : B2Math) (s : b2Rope) (dt : ℚ) :
    (SolveBend_XPBD_Angle M s dt).m_tuning = s.m_tuning :=
  foldl_fieldPres _ (fun t => t.m_tuning) (fun t a => SolveBend_XPBD_AngleBody_tuning M dt t a) _ s

@[simp] theorem ApplyBendForces_ims (M : B2Math) (s : b2Rope) (dt : ℚ) :
    (ApplyBendForces M s dt).m_ims = s.m_ims :=
  foldl_fieldPres _ (fun t => t.m_ims) (fun t a => ApplyBendForcesBody_ims M dt t a) _ s

@[simp] theorem ApplyBendForces_ps (M : B2Math) (s : b2Rope) (dt : ℚ) :
    (ApplyBendForces M s dt).m_ps = s.m_ps :=
  foldl_fieldPres _ (fun t => t.m_ps) (fun t a => ApplyBendForcesBody_ps M dt t a) _ s

@[simp] theorem ApplyBendForces_p0s (M : B2Math) (s : b2Rope) (dt : ℚ) :
    (ApplyBendForces M s dt).m_p0s = s.m_p0s :=
  foldl_fieldPres _ (fun t => t.m_p0s) (fun t a => ApplyBendForcesBody_p0s M dt t a) _ s

@[simp] theorem ApplyBendForces_Ls (M : B2Math) (s : b2Rope) (dt : ℚ) :
    (ApplyBendForces M s dt).m_Ls = s.m_Ls :=
  foldl_fieldPres _ (fun t => t.m_Ls) (fun t a => ApplyBendForcesBody_Ls M dt t a) _ s

@[simp] theorem ApplyBendForces_as (M : B2Math) (s : b2Rope) (dt : ℚ) :
    (ApplyBendForces M s dt).m_as = s.m_as :=
  foldl_fieldPres _ (fun t => t.m_as) (fun t a => ApplyBendForcesBody_as M dt t a) _ s

@[simp] theorem ApplyBendForces_binds (M : B2Math) (s : b2Rope) (dt : ℚ) :
    (ApplyBendForces M s dt).m_bindPositions = s.m_bindPositions :=
  foldl_fieldPres _ (fun t => t.m_bindPositions) (fun t a => ApplyBendForcesBody_binds M dt t a) _ s

@[simp] theorem ApplyBendForces_lambdas (M : B2Math) (s : b2Rope) (dt : ℚ) :
    (ApplyBendForces M s dt).m_bendingLambdas = s.m_bendingLambdas :=
  foldl_fieldPres _ (fun t => t.m_bendingLambdas) (fun t a => ApplyBendForcesBody_lambdas M dt t a) _ s

@[simp] theorem ApplyBendForces_tuning (M : B2Math) (s : b2Rope) (dt : ℚ) :
    (ApplyBendForces M s dt).m_tuning = s.m_tuning :=
  foldl_fieldPres _ (fun t => t.m_tuning) (fun t a => ApplyBendForcesBody_tuning M dt t a) _ s

@[simp] theorem solveOnce_ims (M : B2Math) (s : b2Rope) (dt : ℚ) :
    (solveOnce M s dt).m_ims = s.m_ims := by
  simp only [solveOnce, SolveStretch_ims]
  split
  · exact SolveBend_PBD_Angle_ims M s
  split
  · exact SolveBend_XPBD_Angle_ims M s dt
  rfl

@[simp] theorem solveOnce_vs (M : B2Math) (s : b2Rope) (dt : ℚ) :
    (solveOnce M s dt).m_vs = s.m_vs := by
  simp only [solveOnce, SolveStretch_vs]
  split
  · exact SolveBend_PBD_Angle_vs M s
  split
  · exact SolveBend_XPBD_Angle_vs M s dt
  rfl

@[simp] theorem solveOnce_p0s (M : B2Math) (s : b2Rope) (dt : ℚ) :
    (solveOnce M s dt).m_p0s = s.m_p0s := by
  simp only [solveOnce, SolveStretch_p0s]
  split
  · exact SolveBend_PBD_Angle_p0s M s
  split
  · exact SolveBend_XPBD_Angle_p0s M s dt
  rfl

@[simp] theorem solveOnce_Ls (M : B2Math) (s : b2Rope) (dt : ℚ) :
    (solveOnce M s dt).m_Ls = s.m_Ls := by
  simp only [solveOnce, SolveStretch_Ls]
  split
  · exact SolveBend_PBD_Angle_Ls M s
  split
  · exact SolveBend_XPBD_Angle_Ls M s dt
  rfl

@[simp] theorem solveOnce_as (M : B2Math) (s : b2Rope) (dt : ℚ) :
    (solveOnce M s dt).m_as = s.m_as := by
  simp only [solveOnce, SolveStretch_as]
  split
  · exact SolveBend_PBD_Angle_as M s
  split
  · exact SolveBend_XPBD_Angle_as M s dt
  rfl

@[simp] theorem solveOnce_binds (M : B2Math) (s : b2Rope) (dt : ℚ) :
    (solveOnce M s dt).m_bindPositions = s.m_bindPositions := by
  simp only [solveOnce, SolveStretch_binds]
  split
  · exact SolveBend_PBD_Angle_binds M s
  split
  · exact SolveBend_XPBD_Angle_binds M s dt
  rfl

@[simp] theorem solveOnce_tuning (M : B2Math) (s : b2Rope) (dt : ℚ) :
    (solveOnce M s dt).m_tuning = s.m_tuning := by
  simp only [solveOnce, SolveStretch_tuning]
  split
  · exact SolveBend_PBD_Angle_tuning M s
  split
  · exact SolveBend_XPBD_Angle_tuning M s dt
  rfl

@[simp] theorem solveLoop_ims (M : B2Math) (s : b2Rope) (dt : ℚ) (n : ℕ) :
    (solveLoop M s dt n).m_ims = s.m_ims :=
  foldl_fieldPres _ (fun t => t.m_ims) (fun t _ => solveOnce_ims M t dt) _ s

@[simp] theorem solveLoop_vs (M : B2Math) (s : b2Rope) (dt : ℚ) (n : ℕ) :
    (solveLoop M s dt n).m_vs = s.m_vs :=
  foldl_fieldPres _ (fun t => t.m_vs) (fun t _ => solveOnce_vs M t dt) _ s

@[simp] theorem solveLoop_p0s (M : B2Math) (s : b2Rope) (dt : ℚ) (n : ℕ) :
    (solveLoop M s dt n).m_p0s = s.m_p0s :=
  foldl_fieldPres _ (fun t => t.m_p0s) (fun t _ => solveOnce_p0s M t dt) _ s

@[simp] theorem solveLoop_Ls (M : B2Math) (s : b2Rope) (dt : ℚ) (n : ℕ) :
    (solveLoop M s dt n).m_Ls = s.m_Ls :=
  foldl_fieldPres _ (fun t => t.m_Ls) (fun t _ => solveOnce_Ls M t dt) _ s

@[simp] theorem solveLoop_as (M : B2Math) (s : b2Rope) (dt : ℚ) (n : ℕ) :
    (solveLoop M s dt n).m_as = s.m_as :=
  foldl_fieldPres _ (fun t => t.m_as) (fun t _ => solveOnce_as M t dt) _ s

@[simp] theorem solveLoop_binds (M : B2Math) (s : b2Rope) (dt : ℚ) (n : ℕ) :
    (solveLoop M s dt n).m_bindPositions = s.m_bindPositions :=
  foldl_fieldPres _ (fun t => t.m_bindPositions) (fun t _ => solveOnce_binds M t dt) _ s

@[simp] theorem solveLoop_tuning (M : B2Math) (s : b2Rope) (dt : ℚ) (n : ℕ) :
    (solveLoop M s dt n).m_tuning = s.m_tuning :=
  foldl_fieldPres _ (fun t => t.m_tuning) (fun t _ => solveOnce_tuning M t dt) _ s

/-!
## Properties of the wrap loops
-/

theorem wrapDown_of_not_gt (rest angle : ℚ) (h : ¬ angle - rest > b2_pi) :
    wrapDown rest angle = angle := by
  rw [wrapDown, dif_neg h]

theorem wrapDown_of_gt (rest angle : ℚ) (h : angle - rest > b2_pi) :
    wrapDown rest angle = wrapDown rest (angle - 2 * b2_pi) := by
  conv_lhs => rw [wrapDown]
  rw [dif_pos h]

theorem wrapUp_of_not_lt (rest angle : ℚ) (h : ¬ angle - rest < -b2_pi) :
    wrapUp rest angle = angle := by
  rw [wrapUp, dif_neg h]

theorem wrapUp_of_lt (rest angle : ℚ) (h : angle - rest < -b2_pi) :
    wrapUp rest angle = wrapUp rest (angle + 2 * b2_pi) := by
  conv_lhs => rw [wrapUp]
  rw [dif_pos h]

theorem wrapDownCount_of_not_gt (rest angle : ℚ) (h : ¬ angle - rest > b2_pi) :
    wrapDownCount rest angle = 0 := by
  rw [wrapDownCount, dif_neg h]

theorem wrapDownCount_of_gt (rest angle : ℚ) (h : angle - rest > b2_pi) :
    wrapDownCount rest angle = wrapDownCount rest (angle - 2 * b2_pi) + 1 := by
  conv_lhs => rw [wrapDownCount]
  rw [dif_pos h]

theorem wrapUpCount_of_not_lt (rest angle : ℚ) (h : ¬ angle - rest < -b2_pi) :
    wrapUpCount rest angle = 0 := by
  rw [wrapUpCount, dif_neg h]

theorem wrapUpCount_of_lt (rest angle : ℚ) (h : angle - rest < -b2_pi) :
    wrapUpCount rest angle = wrapUpCount rest (angle + 2 * b2_pi) + 1 := by
  conv_lhs => rw [wrapUpCount]
  rw [dif_pos h]

/-- After the first wrap loop, either nothing happened (and `C ≤ π` already),
or the result satisfies `-π < C ≤ π`. -/
theorem wrapDown_spec (rest angle : ℚ) :
    (wrapDown rest angle = angle ∧ angle - rest ≤ b2_pi)
      ∨ (-b2_pi < wrapDown rest angle - rest ∧ wrapDown rest angle - rest ≤ b2_pi) := by
  induction angle using wrapDown.induct rest with
  | case1 x h ih =>
      rw [wrapDown_of_gt rest x h]
      rcases ih with ⟨heq, hle⟩ | ⟨h1, h2⟩
      · right
        rw [heq]
        have hpi := b2_pi_pos
        constructor <;> linarith
      · right; exact ⟨h1, h2⟩
  | case2 x h =>
      left
      exact ⟨wrapDown_of_not_gt rest x h, le_of_not_lt h⟩

/-- After the second wrap loop, either nothing happened (and `C ≥ -π`
already), or the result satisfies `-π ≤ C < π`. -/
theorem wrapUp_spec (rest angle : ℚ) :
    (wrapUp rest angle = angle ∧ -b2_pi ≤ angle - rest)
      ∨ (-b2_pi ≤ wrapUp rest angle - rest ∧ wrapUp rest angle - rest < b2_pi) := by
  induction angle using wrapUp.induct rest with
  | case1 x h ih =>
      rw [wrapUp_of_lt rest x h]
      rcases ih with ⟨heq, hge⟩ | ⟨h1, h2⟩
      · right
        rw [heq]
        have hpi := b2_pi_pos
        constructor <;> linarith
      · right; exact ⟨h1, h2⟩
  | case2 x h =>
      left
      exact ⟨wrapUp_of_not_lt rest x h, le_of_not_lt h⟩

/-- The first wrap loop only shifts the angle by whole multiples of `2π`. -/
theorem wrapDown_multiple (rest angle : ℚ) :
    ∃ n : ℕ, wrapDown rest angle = angle - 2 * b2_pi * n := by
  induction angle using wrapDown.induct rest with
  | case1 x h ih =>
      obtain ⟨n, hn⟩ := ih
      refine ⟨n + 1, ?_⟩
      rw [wrapDown_of_gt rest x h, hn]
      push_cast
      ring
  | case2 x h =>
      exact ⟨0, by rw [wrapDown_of_not_gt rest x h]; push_cast; ring⟩

/-- The second wrap loop only shifts the angle by whole multiples of `2π`. -/
theorem wrapUp_multiple (rest angle : ℚ) :
    ∃ n : ℕ, wrapUp rest angle = angle + 2 * b2_pi * n := by
  induction angle using wrapUp.induct rest with
  | case1 x h ih =>
      obtain ⟨n, hn⟩ := ih
      refine ⟨n + 1, ?_⟩
      rw [wrapUp_of_lt rest x h, hn]
      push_cast
      ring
  | case2 x h =>
      exact ⟨0, by rw [wrapUp_of_not_lt rest x h]; push_cast; ring⟩

/-- The composed wrap keeps `C = wrapped angle - rest` inside `[-π, π]`. -/
theorem wrapAngle_bounds (rest angle : ℚ) :
    -b2_pi ≤ wrapAngle rest angle - rest ∧ wrapAngle rest angle - rest ≤ b2_pi := by
  unfold wrapAngle
  rcases wrapDown_spec rest angle with ⟨heq, hle⟩ | ⟨h1, h2⟩
  · rw [heq]
    rcases wrapUp_spec rest angle with ⟨heq2, hge⟩ | ⟨g1, g2⟩
    · rw [heq2]; exact ⟨hge, hle⟩
    · exact ⟨g1, le_of_lt g2⟩
  · rw [wrapUp_of_not_lt rest _ (not_lt.mpr (le_of_lt h1))]
    exact ⟨le_of_lt h1, h2⟩

/-- The composed wrap returns a representative of the measured angle modulo
`2π`. -/
theorem wrapAngle_multiple (rest angle : ℚ) :
    ∃ n : ℤ, wrapAngle rest angle = angle + 2 * b2_pi * n := by
  unfold wrapAngle
  obtain ⟨a, ha⟩ := wrapDown_multiple rest angle
  obtain ⟨b, hb⟩ := wrapUp_multiple rest (wrapDown rest angle)
  refine ⟨(b : ℤ) - a, ?_⟩
  rw [hb, ha]
  push_cast
  ring

/-- Shifting the angle down by `2π` lowers the down-loop measure by one. -/
theorem wrapMeasure_down (rest angle : ℚ) :
    ((angle - 2 * b2_pi) - rest - b2_pi) / (2 * b2_pi)
      = (angle - rest - b2_pi) / (2 * b2_pi) - 1 := by
  have h2 : (2 * b2_pi) ≠ 0 := by norm_num [b2_pi]
  field_simp
  ring

/-- Shifting the angle up by `2π` lowers the up-loop measure by one. -/
theorem wrapMeasure_up (rest angle : ℚ) :
    (rest - (angle + 2 * b2_pi) - b2_pi) / (2 * b2_pi)
      = (rest - angle - b2_pi) / (2 * b2_pi) - 1 := by
  have h2 : (2 * b2_pi) ≠ 0 := by norm_num [b2_pi]
  field_simp
  ring

/-- The first wrap loop runs at most `⌈(C - π) / 2π⌉` times. -/
theorem wrapDownCount_le (rest angle : ℚ) :
    wrapDownCount rest angle ≤ (⌈(angle - rest - b2_pi) / (2 * b2_pi)⌉).toNat := by
  induction angle using wrapDownCount.induct rest with
  | case1 x h ih =>
      rw [wrapDownCount_of_gt rest x h]
      have hpi := b2_pi_pos
      have h2 : (0 : ℚ) < 2 * b2_pi := by linarith
      have hx : 0 < (x - rest - b2_pi) / (2 * b2_pi) := div_pos (by linarith) h2
      have hc : 1 ≤ ⌈(x - rest - b2_pi) / (2 * b2_pi)⌉ := Int.ceil_pos.mpr hx
      rw [wrapMeasure_down rest x, Int.ceil_sub_one] at ih
      omega
  | case2 x h =>
      rw [wrapDownCount_of_not_gt rest x h]
      exact Nat.zero_le _

/-- The second wrap loop runs at most `⌈(-C - π) / 2π⌉` times. -/
theorem wrapUpCount_le (rest angle : ℚ) :
    wrapUpCount rest angle ≤ (⌈(rest - angle - b2_pi) / (2 * b2_pi)⌉).toNat := by
  induction angle using wrapUpCount.induct rest with
  | case1 x h ih =>
      rw [wrapUpCount_of_lt rest x h]
      have hpi := b2_pi_pos
      have h2 : (0 : ℚ) < 2 * b2_pi := by linarith
      have hx : 0 < (rest - x - b2_pi) / (2 * b2_pi) := div_pos (by linarith) h2
      have hc : 1 ≤ ⌈(rest - x - b2_pi) / (2 * b2_pi)⌉ := Int.ceil_pos.mpr hx
      rw [wrapMeasure_up rest x, Int.ceil_sub_one] at ih
      omega
  | case2 x h =>
      rw [wrapUpCount_of_not_lt rest x h]
      exact Nat.zero_le _

/-- The total number of wrap-loop iterations is at most
`⌈|angle - rest| / 2π⌉`. -/
theorem wrapIterations_le (rest angle : ℚ) :
    wrapIterations rest angle ≤ (⌈|angle - rest| / (2 * b2_pi)⌉).toNat := by
  have hpi := b2_pi_pos
  have h2 : (0 : ℚ) < 2 * b2_pi := by linarith
  unfold wrapIterations
  by_cases h : angle - rest > b2_pi
  · -- only the down loop runs; afterwards C > -π so the up loop is skipped
    rcases wrapDown_spec rest angle with ⟨_, hle⟩ | ⟨h1, _⟩
    · exact absurd h (not_lt.mpr hle)
    · rw [wrapUpCount_of_not_lt rest _ (not_lt.mpr (le_of_lt h1))]
      have hb := wrapDownCount_le rest angle
      have hq : (angle - rest - b2_pi) / (2 * b2_pi) ≤ |angle - rest| / (2 * b2_pi) := by
        have hle2 : angle - rest - b2_pi ≤ |angle - rest| := by
          have := le_abs_self (angle - rest)
          linarith
        exact (div_le_div_iff_of_pos_right h2).mpr hle2
      have hm := Int.ceil_le_ceil hq
      omega
  · rw [wrapDownCount_of_not_gt rest angle h, wrapDown_of_not_gt rest angle h]
    have hb := wrapUpCount_le rest angle
    have hq : (rest - angle - b2_pi) / (2 * b2_pi) ≤ |angle - rest| / (2 * b2_pi) := by
      have hle2 : rest - angle - b2_pi ≤ |angle - rest| := by
        have := neg_le_abs (angle - rest)
        linarith
      exact (div_le_div_iff_of_pos_right h2).mpr hle2
    have hm := Int.ceil_le_ceil hq
    omega

/-- Wrapping a raw angle that exceeds the rest angle by exactly `π + ε`
(for `0 < ε ≤ 2π`) yields the constraint value `-π + ε`. -/
theorem wrapAngle_pi_eps (rest eps : ℚ) (h0 : 0 < eps) (h2 : eps ≤ 2 * b2_pi) :
    wrapAngle rest (rest + b2_pi + eps) - rest = -b2_pi + eps := by
  have hpi := b2_pi_pos
  unfold wrapAngle
  have hgt : (rest + b2_pi + eps) - rest > b2_pi := by linarith
  rw [wrapDown_of_gt _ _ hgt]
  have hle : ¬ ((rest + b2_pi + eps) - 2 * b2_pi - rest > b2_pi) := by
    intro hcon
    linarith
  rw [wrapDown_of_not_gt _ _ hle]
  have hge : ¬ ((rest + b2_pi + eps) - 2 * b2_pi - rest < -b2_pi) := by
    intro hcon
    linarith
  rw [wrapUp_of_not_lt _ _ hge]
  ring

/-!
## Pinned particles are never moved by the solvers

Every position (or velocity) correction applied to particle `k` is scaled by
that particle's own inverse mass, so a kinematic particle (`m_ims k = 0`) is
left untouched by every constraint.
-/

theorem SolveStretchBody_ps_of_im_zero (M : B2Math) (s : b2Rope) (j i : ℕ)
    (h : s.m_ims i = 0) : (SolveStretchBody M s j).m_ps i = s.m_ps i := by
  simp only [SolveStretchBody]
  split
  · rfl
  simp only [setIdx2]
  split
  · rename_i hij
    subst hij
    simp [h, b2Vec2.sub_zero_smul]
  split
  · rename_i hij' hij
    subst hij
    simp [h, b2Vec2.add_zero_smul]
  rfl

theorem SolveBend_PBD_AngleBody_ps_of_im_zero (M : B2Math) (s : b2Rope) (j i : ℕ)
    (h : s.m_ims i = 0) : (SolveBend_PBD_AngleBody M s j).m_ps i = s.m_ps i := by
  simp only [SolveBend_PBD_AngleBody]
  split
  · rfl
  split
  · rfl
  simp only [setIdx3]
  split
  · rename_i hij
    subst hij
    simp [h, b2Vec2.add_zero_smul]
  split
  · rename_i hij' hij
    subst hij
    simp [h, b2Vec2.add_zero_smul]
  split
  · rename_i hij'' hij' hij
    subst hij
    simp [h, b2Vec2.add_zero_smul]
  rfl

theorem SolveBend_XPBD_AngleBody_ps_of_im_zero (M : B2Math) (dt : ℚ) (s : b2Rope) (j i : ℕ)
    (h : s.m_ims i = 0) : (SolveBend_XPBD_AngleBody M dt s j).m_ps i = s.m_ps i := by
  simp only [SolveBend_XPBD_AngleBody]
  split
  · rfl
  split
  · rfl
  simp only [setIdx3]
  split
  · rename_i hij
    subst hij
    simp [h, b2Vec2.add_zero_smul]
  split
  · rename_i hij' hij
    subst hij
    simp [h, b2Vec2.add_zero_smul]
  split
  · rename_i hij'' hij' hij
    subst hij
    simp [h, b2Vec2.add_zero_smul]
  rfl

theorem ApplyBendForcesBody_vs_of_im_zero (M : B2Math) (dt : ℚ) (s : b2Rope) (j i : ℕ)
    (h : s.m_ims i = 0) : (ApplyBendForcesBody M dt s j).m_vs i = s.m_vs i := by
  simp only [ApplyBendForcesBody]
  split
  · rfl
  split
  · rfl
  simp only [setIdx3]
  split
  · rename_i hij
    subst hij
    simp [h, b2Vec2.add_zero_smul]
  split
  · rename_i hij' hij
    subst hij
    simp [h, b2Vec2.add_zero_smul]
  split
  · rename_i hij'' hij' hij
    subst hij
    simp [h, b2Vec2.add_zero_smul]
  rfl

/-- Generic lift of pinned-particle preservation through a sweep, given that
the sweep body preserves inverse masses and pinned positions. -/
theorem foldl_ps_of_im_zero {α : Type} (f : b2Rope → α → b2Rope) (i : ℕ)
    (hims : ∀ t a, (f t a).m_ims = t.m_ims)
    (hps : ∀ t a, t.m_ims i = 0 → (f t a).m_ps i = t.m_ps i)
    (l : List α) (s : b2Rope) (h : s.m_ims i = 0) :
    (List.foldl f s l).m_ps i = s.m_ps i := by
  have key := foldl_inv f (fun t => t.m_ims i = 0 ∧ t.m_ps i = s.m_ps i)
    (fun t a ht => ⟨by rw [hims]; exact ht.1, by rw [hps t a ht.1]; exact ht.2⟩)
    l s ⟨h, rfl⟩
  exact key.2

theorem SolveStretch_ps_of_im_zero (M : B2Math) (s : b2Rope) (i : ℕ)
    (h : s.m_ims i = 0) : (SolveStretch M s).m_ps i = s.m_ps i :=
  foldl_ps_of_im_zero _ i (fun t a => SolveStretchBody_ims M t a)
    (fun t a => SolveStretchBody_ps_of_im_zero M t a i) _ s h

theorem SolveBend_PBD_Angle_ps_of_im_zero (M : B2Math) (s : b2Rope) (i : ℕ)
    (h : s.m_ims i = 0) : (SolveBend_PBD_Angle M s).m_ps i = s.m_ps i :=
  foldl_ps_of_im_zero _ i (fun t a => SolveBend_PBD_AngleBody_ims M t a)
    (fun t a => SolveBend_PBD_AngleBody_ps_of_im_zero M t a i) _ s h

theorem SolveBend_XPBD_Angle_ps_of_im_zero (M : B2Math) (s : b2Rope) (dt : ℚ) (i : ℕ)
    (h : s.m_ims i = 0) : (SolveBend_XPBD_Angle M s dt).m_ps i = s.m_ps i :=
  foldl_ps_of_im_zero _ i (fun t a => SolveBend_XPBD_AngleBody_ims M dt t a)
    (fun t a => SolveBend_XPBD_AngleBody_ps_of_im_zero M dt t a i) _ s h

theorem ApplyBendForces_vs_of_im_zero (M : B2Math) (s : b2Rope) (dt : ℚ) (i : ℕ)
    (h : s.m_ims i = 0) : (ApplyBendForces M s dt).m_vs i = s.m_vs i := by
  have key := foldl_inv (ApplyBendForcesBody M dt)
    (fun t => t.m_ims i = 0 ∧ t.m_vs i = s.m_vs i)
    (fun t a ht => ⟨by rw [ApplyBendForcesBody_ims]; exact ht.1,
      by rw [ApplyBendForcesBody_vs_of_im_zero M dt t a i ht.1]; exact ht.2⟩)
    (List.range (s.m_count - 2)) s ⟨h, rfl⟩
  exact key.2

theorem solveOnce_ps_of_im_zero (M : B2Math) (s : b2Rope) (dt : ℚ) (i : ℕ)
    (h : s.m_ims i = 0) : (solveOnce M s dt).m_ps i = s.m_ps i := by
  simp only [solveOnce]
  split
  · rw [SolveStretch_ps_of_im_zero _ _ _ (by rw [SolveBend_PBD_Angle_ims]; exact h)]
    exact SolveBend_PBD_Angle_ps_of_im_zero M s i h
  split
  · rw [SolveStretch_ps_of_im_zero _ _ _ (by rw [SolveBend_XPBD_Angle_ims]; exact h)]
    exact SolveBend_XPBD_Angle_ps_of_im_zero M s dt i h
  exact SolveStretch_ps_of_im_zero M s i h

theorem solveLoop_ps_of_im_zero (M : B2Math) (s : b2Rope) (dt : ℚ) (n i : ℕ)
    (h : s.m_ims i = 0) : (solveLoop M s dt n).m_ps i = s.m_ps i :=
  foldl_ps_of_im_zero _ i (fun t _ => solveOnce_ims M t dt)
    (fun t _ => solveOnce_ps_of_im_zero M t dt i) _ s h

/-!
## Projection lemmas for the step phases
-/

@[simp] theorem predictVelocities_ps (M : B2Math) (s : b2Rope) (dt : ℚ) (position : b2Vec2) :
    (predictVelocities M s dt position).m_ps = s.m_ps := rfl

@[simp] theorem predictVelocities_p0s (M : B2Math) (s : b2Rope) (dt : ℚ) (position : b2Vec2) :
    (predictVelocities M s dt position).m_p0s = s.m_p0s := rfl

@[simp] theorem predictVelocities_ims (M : B2Math) (s : b2Rope) (dt : ℚ) (position : b2Vec2) :
    (predictVelocities M s dt position).m_ims = s.m_ims := rfl

@[simp] theorem predictVelocities_Ls (M : B2Math) (s : b2Rope) (dt : ℚ) (position : b2Vec2) :
    (predictVelocities M s dt position).m_Ls = s.m_Ls := rfl

@[simp] theorem predictVelocities_as (M : B2Math) (s : b2Rope) (dt : ℚ) (position : b2Vec2) :
    (predictVelocities M s dt position).m_as = s.m_as := rfl

@[simp] theorem predictVelocities_binds (M : B2Math) (s : b2Rope) (dt : ℚ) (position : b2Vec2) :
    (predictVelocities M s dt position).m_bindPositions = s.m_bindPositions := rfl

@[simp] theorem predictVelocities_lambdas (M : B2Math) (s : b2Rope) (dt : ℚ) (position : b2Vec2) :
    (predictVelocities M s dt position).m_bendingLambdas = s.m_bendingLambdas := rfl

@[simp] theorem predictVelocities_tuning (M : B2Math) (s : b2Rope) (dt : ℚ) (position : b2Vec2) :
    (predictVelocities M s dt position).m_tuning = s.m_tuning := rfl

@[simp] theorem predictVelocities_gravity (M : B2Math) (s : b2Rope) (dt : ℚ) (position : b2Vec2) :
    (predictVelocities M s dt position).m_gravity = s.m_gravity := rfl

@[simp] theorem predictVelocities_count (M : B2Math) (s : b2Rope) (dt : ℚ) (position : b2Vec2) :
    (predictVelocities M s dt position).m_count = s.m_count := rfl

@[simp] theorem predictVelocities_stretchCount (M : B2Math) (s : b2Rope) (dt : ℚ) (position : b2Vec2) :
    (predictVelocities M s dt position).m_stretchCount = s.m_stretchCount := rfl

@[simp] theorem predictVelocities_bendCount (M : B2Math) (s : b2Rope) (dt : ℚ) (position : b2Vec2) :
    (predictVelocities M s dt position).m_bendCount = s.m_bendCount := rfl

@[simp] theorem integratePositions_p0s (s : b2Rope) (dt : ℚ) :
    (integratePositions s dt).m_p0s = s.m_p0s := rfl

@[simp] theorem integratePositions_vs (s : b2Rope) (dt : ℚ) :
    (integratePositions s dt).m_vs = s.m_vs := rfl

@[simp] theorem integratePositions_ims (s : b2Rope) (dt : ℚ) :
    (integratePositions s dt).m_ims = s.m_ims := rfl

@[simp] theorem integratePositions_Ls (s : b2Rope) (dt : ℚ) :
    (integratePositions s dt).m_Ls = s.m_Ls := rfl

@[simp] theorem integratePositions_as (s : b2Rope) (dt : ℚ) :
    (integratePositions s dt).m_as = s.m_as := rfl

@[simp] theorem integratePositions_binds (s : b2Rope) (dt : ℚ) :
    (integratePositions s dt).m_bindPositions = s.m_bindPositions := rfl

@[simp] theorem integratePositions_lambdas (s : b2Rope) (dt : ℚ) :
    (integratePositions s dt).m_bendingLambdas = s.m_bendingLambdas := rfl

@[simp] theorem integratePositions_tuning (s : b2Rope) (dt : ℚ) :
    (integratePositions s dt).m_tuning = s.m_tuning := rfl

@[simp] theorem integratePositions_gravity (s : b2Rope) (dt : ℚ) :
    (integratePositions s dt).m_gravity = s.m_gravity := rfl

@[simp] theorem integratePositions_count (s : b2Rope) (dt : ℚ) :
    (integratePositions s dt).m_count = s.m_count := rfl

@[simp] theorem integratePositions_stretchCount (s : b2Rope) (dt : ℚ) :
    (integratePositions s dt).m_stretchCount = s.m_stretchCount := rfl

@[simp] theorem integratePositions_bendCount (s : b2Rope) (dt : ℚ) :
    (integratePositions s dt).m_bendCount = s.m_bendCount := rfl

@[simp] theorem resetBendLambdas_ps (s : b2Rope) :
    (resetBendLambdas s).m_ps = s.m_ps := rfl

@[simp] theorem resetBendLambdas_p0s (s : b2Rope) :
    (resetBendLambdas s).m_p0s = s.m_p0s := rfl

@[simp] theorem resetBendLambdas_vs (s : b2Rope) :
    (resetBendLambdas s).m_vs = s.m_vs := rfl

@[simp] theorem resetBendLambdas_ims (s : b2Rope) :
    (resetBendLambdas s).m_ims = s.m_ims := rfl

@[simp] theorem resetBendLambdas_Ls (s : b2Rope) :
    (resetBendLambdas s).m_Ls = s.m_Ls := rfl

@[simp] theorem resetBendLambdas_as (s : b2Rope) :
    (resetBendLambdas s).m_as = s.m_as := rfl

@[simp] theorem resetBendLambdas_binds (s : b2Rope) :
    (resetBendLambdas s).m_bindPositions = s.m_bindPositions := rfl

@[simp] theorem resetBendLambdas_tuning (s : b2Rope) :
    (resetBendLambdas s).m_tuning = s.m_tuning := rfl

@[simp] theorem resetBendLambdas_gravity (s : b2Rope) :
    (resetBendLambdas s).m_gravity = s.m_gravity := rfl

@[simp] theorem resetBendLambdas_count (s : b2Rope) :
    (resetBendLambdas s).m_count = s.m_count := rfl

@[simp] theorem resetBendLambdas_stretchCount (s : b2Rope) :
    (resetBendLambdas s).m_stretchCount = s.m_stretchCount := rfl

@[simp] theorem resetBendLambdas_bendCount (s : b2Rope) :
    (resetBendLambdas s).m_bendCount = s.m_bendCount := rfl

@[simp] theorem reconstructVelocities_ps (s : b2Rope) (dt : ℚ) :
    (reconstructVelocities s dt).m_ps = s.m_ps := rfl

@[simp] theorem reconstructVelocities_ims (s : b2Rope) (dt : ℚ) :
    (reconstructVelocities s dt).m_ims = s.m_ims := rfl

@[simp] theorem reconstructVelocities_Ls (s : b2Rope) (dt : ℚ) :
    (reconstructVelocities s dt).m_Ls = s.m_Ls := rfl

@[simp] theorem reconstructVelocities_as (s : b2Rope) (dt : ℚ) :
    (reconstructVelocities s dt).m_as = s.m_as := rfl

@[simp] theorem reconstructVelocities_binds (s : b2Rope) (dt : ℚ) :
    (reconstructVelocities s dt).m_bindPositions = s.m_bindPositions := rfl

@[simp] theorem reconstructVelocities_lambdas (s : b2Rope) (dt : ℚ) :
    (reconstructVelocities s dt).m_bendingLambdas = s.m_bendingLambdas := rfl

@[simp] theorem reconstructVelocities_tuning (s : b2Rope) (dt : ℚ) :
    (reconstructVelocities s dt).m_tuning = s.m_tuning := rfl

@[simp] theorem reconstructVelocities_gravity (s : b2Rope) (dt : ℚ) :
    (reconstructVelocities s dt).m_gravity = s.m_gravity := rfl

@[simp] theorem reconstructVelocities_count (s : b2Rope) (dt : ℚ) :
    (reconstructVelocities s dt).m_count = s.m_count := rfl

@[simp] theorem reconstructVelocities_stretchCount (s : b2Rope) (dt : ℚ) :
    (reconstructVelocities s dt).m_stretchCount = s.m_stretchCount := rfl

@[simp] theorem reconstructVelocities_bendCount (s : b2Rope) (dt : ℚ) :
    (reconstructVelocities s dt).m_bendCount = s.m_bendCount := rfl

/-- Unfolding lemma for `Step` when `dt ≠ 0`: the six phases in source
order. -/
theorem Step_eq (M : B2Math) (s : b2Rope) (dt : ℚ) (it : ℕ) (pos : b2Vec2)
    (h : dt ≠ 0) :
    Step M s dt it pos =
      reconstructVelocities
        (solveLoop M
          (resetBendLambdas (integratePositions
            (if s.m_tuning.bendingModel = b2BendingModel.b2_forceAngleBendingModel
              then ApplyBendForces M (predictVelocities M s dt pos) dt
              else predictVelocities M s dt pos) dt)) dt it) dt := by
  simp only [Step, if_neg h]
  rfl

/-- `Step` with `dt = 0` is the identity. -/
theorem Step_zero_dt (M : B2Math) (s : b2Rope) (it : ℕ) (pos : b2Vec2) :
    Step M s 0 it pos = s := by
  simp [Step]

/-!
## The bend multipliers entering a step are irrelevant

`Step` resets `m_bendingLambdas` after position integration and before the
iteration loop; no phase before the reset reads the multipliers.
-/

theorem ApplyBendForcesBody_lambda_comm (M : B2Math) (dt : ℚ) (s : b2Rope)
    (i : ℕ) (f : ℕ → ℚ) :
    ApplyBendForcesBody M dt { s with m_bendingLambdas := f } i
      = { ApplyBendForcesBody M dt s i with m_bendingLambdas := f } := by
  simp only [ApplyBendForcesBody]
  rw [show bendL1sqr { s with m_bendingLambdas := f } i = bendL1sqr s i from rfl,
    show bendL2sqr { s with m_bendingLambdas := f } i = bendL2sqr s i from rfl,
    show bendW { s with m_bendingLambdas := f } i = bendW s i from rfl]
  split
  · rfl
  split
  · rfl
  rfl

theorem ApplyBendForces_lambda_comm (M : B2Math) (s : b2Rope) (dt : ℚ) (f : ℕ → ℚ) :
    ApplyBendForces M { s with m_bendingLambdas := f } dt
      = { ApplyBendForces M s dt with m_bendingLambdas := f } := by
  unfold ApplyBendForces
  rw [show ({ s with m_bendingLambdas := f } : b2Rope).m_count = s.m_count from rfl]
  generalize List.range (s.m_count - 2) = l
  induction l generalizing s with
  | nil => rfl
  | cons a l ih =>
      rw [List.foldl_cons, List.foldl_cons,
        ApplyBendForcesBody_lambda_comm M dt s a f, ih]

/-- The state entering the iteration loop of `Step` does not depend on the
incoming bend multipliers. -/
theorem preLoop_lambda_irrelevant (M : B2Math) (s : b2Rope) (dt : ℚ)
    (pos : b2Vec2) (f : ℕ → ℚ) :
    resetBendLambdas (integratePositions
      (if ({ s with m_bendingLambdas := f } : b2Rope).m_tuning.bendingModel
          = b2BendingModel.b2_forceAngleBendingModel
        then ApplyBendForces M (predictVelocities M { s with m_bendingLambdas := f } dt pos) dt
        else predictVelocities M { s with m_bendingLambdas := f } dt pos) dt)
    = resetBendLambdas (integratePositions
      (if s.m_tuning.bendingModel = b2BendingModel.b2_forceAngleBendingModel
        then ApplyBendForces M (predictVelocities M s dt pos) dt
        else predictVelocities M s dt pos) dt) := by
  rw [show ({ s with m_bendingLambdas := f } : b2Rope).m_tuning = s.m_tuning from rfl]
  split
  · rw [show predictVelocities M { s with m_bendingLambdas := f } dt pos
        = { predictVelocities M s dt pos with m_bendingLambdas := f } from rfl,
      ApplyBendForces_lambda_comm]
    rfl
  · rfl

/-!
## Concrete sample data (used to instantiate theorems with hypotheses)
-/

/-- A concrete instance of the external math record (any instance works for
the universally quantified theorems). -/
def mathSample : B2Math :=
  { atan2 := fun _ _ => 0, sqrt := fun _ => 0, exp := fun _ => 1 }

/-- A concrete tuning record. -/
def tuningSample : b2RopeTuning :=
  { damping := 0, stretchStiffness := 1, bendStiffness := 1, bendHertz := 1,
    bendDamping := 0, bendingModel := b2BendingModel.b2_noBendingModel }

/-- A concrete 3-particle rope in a right-angle configuration, all particles
dynamic with unit inverse mass. -/
def ropeSample : b2Rope :=
  { m_count := 3
    m_bindPositions := fun _ => b2Vec2.zero
    m_ps := fun i => if i = 0 then ⟨0, 0⟩ else if i = 1 then ⟨1, 0⟩ else ⟨1, 1⟩
    m_p0s := fun i => if i = 0 then ⟨0, 0⟩ else if i = 1 then ⟨1, 0⟩ else ⟨1, 1⟩
    m_vs := fun _ => b2Vec2.zero
    m_ims := fun _ => 1
    m_Ls := fun _ => 1
    m_as := fun _ => 0
    m_bendingLambdas := fun _ => 0
    m_stretchCount := 2
    m_bendCount := 1
    m_gravity := ⟨0, -10⟩
    m_tuning := tuningSample }

/-- `ropeSample` with particle 0 pinned. -/
def ropePinned : b2Rope :=
  { ropeSample with m_ims := fun i => if i = 0 then 0 else 1 }

/-- `ropeSample` with the XPBD bending model and a zero bend frequency. -/
def ropeHertzZero : b2Rope :=
  { ropeSample with m_tuning :=
      { tuningSample with
        bendHertz := 0
        bendingModel := b2BendingModel.b2_xpbdAngleBendingModel } }

/-- A two-vertex construction input (below the minimum count). -/
def defTwo : b2RopeDef :=
  { vertices := fun _ => b2Vec2.zero, masses := fun _ => 1, count := 2,
    gravity := b2Vec2.zero, tuning := tuningSample }

/-- A three-vertex construction input. -/
def defThree : b2RopeDef :=
  { vertices := fun i => if i = 0 then ⟨0, 0⟩ else if i = 1 then ⟨1, 0⟩ else ⟨1, 1⟩,
    masses := fun _ => 1, count := 3,
    gravity := b2Vec2.zero, tuning := tuningSample }

/-!
# The claims
-/

/-- C9: `Initialize` fails fast with an invalid-argument condition whenever
the supplied vertex count is less than 3 (modelling `b2Assert(def->count >= 3)`
as a failure); it does not silently construct a rope in that case, while with
at least three vertices it constructs the rope state. -/
theorem C9_initialize_count (M : B2Math) (d : b2RopeDef) :
    (d.count < 3 → (Initialize M d).isOk = false)
    ∧ (3 ≤ d.count → Initialize M d = Except.ok (initializeCore M d)) := by
  constructor
  · intro h
    simp [Initialize, if_pos h, Except.isOk, Except.toBool]
  · intro h
    simp [Initialize, if_neg (not_lt.mpr h)]

/-- Witness for C9 at concrete inputs: a 2-vertex definition is rejected and a
3-vertex definition is accepted. -/
theorem C9_initialize_count_witness :
    (defTwo.count < 3 ∧ (Initialize mathSample defTwo).isOk = false)
    ∧ (3 ≤ defThree.count
        ∧ Initialize mathSample defThree
          = Except.ok (initializeCore mathSample defThree)) :=
  ⟨⟨by decide, (C9_initialize_count mathSample defTwo).1 (by decide)⟩,
    ⟨by decide, (C9_initialize_count mathSample defThree).2 (by decide)⟩⟩

/-- C8: `Step` never modifies the stretch rest lengths, the bend rest angles,
the inverse masses, or the bind positions; `SetAngle` (the
reference-angle override) overwrites every bend constraint's rest angle with
the single given value and modifies nothing else. -/
theorem C8_frame (M : B2Math) (s : b2Rope) (dt : ℚ) (it : ℕ) (pos : b2Vec2)
    (angle : ℚ) :
    (Step M s dt it pos).m_Ls = s.m_Ls
    ∧ (Step M s dt it pos).m_as = s.m_as
    ∧ (Step M s dt it pos).m_ims = s.m_ims
    ∧ (Step M s dt it pos).m_bindPositions = s.m_bindPositions
    ∧ (SetAngle s angle).m_as = (fun _ => angle)
    ∧ (SetAngle s angle).m_count = s.m_count
    ∧ (SetAngle s angle).m_bindPositions = s.m_bindPositions
    ∧ (SetAngle s angle).m_ps = s.m_ps
    ∧ (SetAngle s angle).m_p0s = s.m_p0s
    ∧ (SetAngle s angle).m_vs = s.m_vs
    ∧ (SetAngle s angle).m_ims = s.m_ims
    ∧ (SetAngle s angle).m_Ls = s.m_Ls
    ∧ (SetAngle s angle).m_bendingLambdas = s.m_bendingLambdas
    ∧ (SetAngle s angle).m_stretchCount = s.m_stretchCount
    ∧ (SetAngle s angle).m_bendCount = s.m_bendCount
    ∧ (SetAngle s angle).m_gravity = s.m_gravity
    ∧ (SetAngle s angle).m_tuning = s.m_tuning := by
  by_cases h : dt = 0
  · subst h
    rw [Step_zero_dt]
    exact ⟨rfl, rfl, rfl, rfl, rfl, rfl, rfl, rfl, rfl, rfl, rfl, rfl, rfl, rfl,
      rfl, rfl, rfl⟩
  · rw [Step_eq M s dt it pos h]
    refine ⟨?_, ?_, ?_, ?_, rfl, rfl, rfl, rfl, rfl, rfl, rfl, rfl, rfl, rfl,
      rfl, rfl, rfl⟩ <;>
      · simp only [reconstructVelocities_Ls, reconstructVelocities_as,
          reconstructVelocities_ims, reconstructVelocities_binds,
          solveLoop_Ls, solveLoop_as, solveLoop_ims, solveLoop_binds,
          resetBendLambdas_Ls, resetBendLambdas_as, resetBendLambdas_ims,
          resetBendLambdas_binds, integratePositions_Ls, integratePositions_as,
          integratePositions_ims, integratePositions_binds]
        split <;> simp

/-- C7: every bend Lagrange multiplier is zero at initialization; inside every
step (after position integration, before the first solver iteration) the
multipliers are reset to zero, so the multipliers a step starts from are
irrelevant to its result — they persist only across the iterations of one
step, never from one step to the next — and with zero iterations a step ends
with all multipliers zero. -/
theorem C7_lambda_lifecycle (M : B2Math) (d : b2RopeDef) (s : b2Rope) (dt : ℚ)
    (it : ℕ) (pos : b2Vec2) (f g : ℕ → ℚ) (i : ℕ) :
    (initializeCore M d).m_bendingLambdas i = 0
    ∧ (dt ≠ 0 → Step M { s with m_bendingLambdas := f } dt it pos
        = Step M { s with m_bendingLambdas := g } dt it pos)
    ∧ (dt ≠ 0 → (Step M s dt 0 pos).m_bendingLambdas i = 0) := by
  refine ⟨rfl, ?_, ?_⟩
  · intro h
    rw [Step_eq M { s with m_bendingLambdas := f } dt it pos h,
      Step_eq M { s with m_bendingLambdas := g } dt it pos h,
      preLoop_lambda_irrelevant M s dt pos f,
      preLoop_lambda_irrelevant M s dt pos g]
  · intro h
    rw [Step_eq M s dt 0 pos h]
    rfl

/-- Witness for C7 at concrete inputs (`dt = 1`, two different incoming
multiplier assignments). -/
theorem C7_lambda_lifecycle_witness :
    (initializeCore mathSample defThree).m_bendingLambdas 0 = 0
    ∧ Step mathSample { ropeSample with m_bendingLambdas := fun _ => 5 } 1 2 b2Vec2.zero
        = Step mathSample { ropeSample with m_bendingLambdas := fun _ => 7 } 1 2 b2Vec2.zero
    ∧ (Step mathSample ropeSample 1 0 b2Vec2.zero).m_bendingLambdas 0 = 0 := by
  have h := C7_lambda_lifecycle mathSample defThree ropeSample 1 2 b2Vec2.zero
    (fun _ => 5) (fun _ => 7) 0
  exact ⟨h.1, h.2.1 one_ne_zero, h.2.2 one_ne_zero⟩

/-- C6: the wrap procedure in the bend solvers yields the representative of
the measured angle nearest the rest angle: the wrapped angle differs from the
raw angle by a whole multiple of `2π`, its offset `C` from the rest angle lies
in `[-π, π]` and is no farther from zero than any other `2π`-translate; in
particular a raw angle exceeding the rest angle by exactly `π + ε`
(small `ε > 0`) resolves to `C = -π + ε`, not `π + ε`; and the solvers'
constraint value `bendC` is exactly this wrapped offset. -/
theorem C6_wrap_nearest (M : B2Math) (s : b2Rope) (i : ℕ)
    (rest angle eps : ℚ) (h0 : 0 < eps) (h2 : eps ≤ 2 * b2_pi) :
    (∃ n : ℤ, wrapAngle rest angle = angle + 2 * b2_pi * n)
    ∧ -b2_pi ≤ wrapAngle rest angle - rest
    ∧ wrapAngle rest angle - rest ≤ b2_pi
    ∧ (∀ k : ℤ, |wrapAngle rest angle - rest|
        ≤ |wrapAngle rest angle + 2 * b2_pi * k - rest|)
    ∧ wrapAngle rest (rest + b2_pi + eps) - rest = -b2_pi + eps
    ∧ bendC M s i = wrapAngle (s.m_as i) (bendAngle M s i) - s.m_as i := by
  obtain ⟨hlo, hhi⟩ := wrapAngle_bounds rest angle
  refine ⟨wrapAngle_multiple rest angle, hlo, hhi, ?_, wrapAngle_pi_eps rest eps h0 h2, rfl⟩
  intro k
  rcases eq_or_ne k 0 with hk | hk
  · subst hk
    simp
  · have hpi := b2_pi_pos
    have hk1 : (1 : ℚ) ≤ |(k : ℚ)| := by
      have := Int.one_le_abs hk
      calc (1 : ℚ) ≤ ((|k| : ℤ) : ℚ) := by exact_mod_cast this
        _ = |(k : ℚ)| := by push_cast; rfl
    have habs : |2 * b2_pi * (k : ℚ)| = 2 * b2_pi * |(k : ℚ)| := by
      rw [abs_mul, abs_of_pos (by linarith : (0 : ℚ) < 2 * b2_pi)]
    set t := wrapAngle rest angle - rest with ht
    have harr : wrapAngle rest angle + 2 * b2_pi * (k : ℚ) - rest
        = t + 2 * b2_pi * (k : ℚ) := by rw [ht]; ring
    rw [harr]
    have hu : 2 * b2_pi ≤ |2 * b2_pi * (k : ℚ)| := by
      rw [habs]
      nlinarith
    rcases abs_cases t with ⟨e1, _⟩ | ⟨e1, _⟩ <;>
      rcases abs_cases (t + 2 * b2_pi * (k : ℚ)) with ⟨e2, _⟩ | ⟨e2, _⟩ <;>
      rcases abs_cases (2 * b2_pi * (k : ℚ)) with ⟨e3, _⟩ | ⟨e3, _⟩ <;>
      rw [e1, e2] <;> rw [e3] at hu <;> linarith

/-- Witness for C6 at concrete inputs (`rest = 0`, `angle = 0`,
`ε = 1`). -/
theorem C6_wrap_nearest_witness :
    (0 : ℚ) < 1 ∧ (1 : ℚ) ≤ 2 * b2_pi
    ∧ ((∃ n : ℤ, wrapAngle 0 0 = 0 + 2 * b2_pi * n)
      ∧ -b2_pi ≤ wrapAngle 0 0 - 0
      ∧ wrapAngle 0 0 - 0 ≤ b2_pi
      ∧ (∀ k : ℤ, |wrapAngle 0 0 - 0| ≤ |wrapAngle 0 0 + 2 * b2_pi * k - 0|)
      ∧ wrapAngle 0 (0 + b2_pi + 1) - 0 = -b2_pi + 1
      ∧ bendC mathSample ropeSample 0
          = wrapAngle (ropeSample.m_as 0) (bendAngle mathSample ropeSample 0)
            - ropeSample.m_as 0) :=
  ⟨by norm_num, by norm_num [b2_pi],
    C6_wrap_nearest mathSample ropeSample 0 0 0 1 (by norm_num) (by norm_num [b2_pi])⟩

/-- C10: the angle-wrap while loops terminate for every measured angle and
every rest angle: they are realized by total functions whose combined
iteration count is at most `⌈|angle - restAngle| / (2π)⌉`, the first loop
establishes `C ≤ π`, and the composed wrap establishes `-π ≤ C ≤ π`. -/
theorem C10_wrap_terminates (rest angle : ℚ) :
    wrapIterations rest angle ≤ (⌈|angle - rest| / (2 * b2_pi)⌉).toNat
    ∧ wrapDown rest angle - rest ≤ b2_pi
    ∧ -b2_pi ≤ wrapAngle rest angle - rest
    ∧ wrapAngle rest angle - rest ≤ b2_pi := by
  refine ⟨wrapIterations_le rest angle, ?_, (wrapAngle_bounds rest angle).1,
    (wrapAngle_bounds rest angle).2⟩
  rcases wrapDown_spec rest angle with ⟨heq, hle⟩ | ⟨_, h2⟩
  · rw [heq]; exact hle
  · exact h2

/-- C5: for a stretch constraint over particles `(i, i+1)` with
`im1 + im2 > 0`, one solver pass moves particle `i` by
`-k·s1·(L0 - L)·d̂` and particle `i+1` by `+k·s2·(L0 - L)·d̂` with
`s1 = im1/(im1+im2)`, `s2 = im2/(im1+im2)`, leaves all other particles
unmodified, and the two displacements are in the ratio `im1 : im2`
(expressed cross-multiplied: `im2·Δp1 + im1·Δp2 = 0`); when
`im1 + im2 = 0` the constraint is skipped and the state is unmodified. -/
theorem C5_stretch_mass_weighting (M : B2Math) (s : b2Rope) (i : ℕ) :
    (s.m_ims i + s.m_ims (i + 1) = 0 → SolveStretchBody M s i = s)
    ∧ (s.m_ims i + s.m_ims (i + 1) ≠ 0 →
        (SolveStretchBody M s i).m_ps i
          = s.m_ps i - (s.m_tuning.stretchStiffness
              * (s.m_ims i / (s.m_ims i + s.m_ims (i + 1)))
              * (s.m_Ls i - ((s.m_ps (i + 1) - s.m_ps i).Normalize M).2))
              • ((s.m_ps (i + 1) - s.m_ps i).Normalize M).1
        ∧ (SolveStretchBody M s i).m_ps (i + 1)
          = s.m_ps (i + 1) + (s.m_tuning.stretchStiffness
              * (s.m_ims (i + 1) / (s.m_ims i + s.m_ims (i + 1)))
              * (s.m_Ls i - ((s.m_ps (i + 1) - s.m_ps i).Normalize M).2))
              • ((s.m_ps (i + 1) - s.m_ps i).Normalize M).1
        ∧ (∀ j, j ≠ i → j ≠ i + 1 → (SolveStretchBody M s i).m_ps j = s.m_ps j)
        ∧ s.m_ims (i + 1) • ((SolveStretchBody M s i).m_ps i - s.m_ps i)
            + s.m_ims i • ((SolveStretchBody M s i).m_ps (i + 1) - s.m_ps (i + 1))
          = b2Vec2.zero) := by
  constructor
  · intro h
    simp only [SolveStretchBody]
    rw [if_pos h]
  · intro h
    have h1 : (SolveStretchBody M s i).m_ps i
        = s.m_ps i - (s.m_tuning.stretchStiffness
            * (s.m_ims i / (s.m_ims i + s.m_ims (i + 1)))
            * (s.m_Ls i - ((s.m_ps (i + 1) - s.m_ps i).Normalize M).2))
            • ((s.m_ps (i + 1) - s.m_ps i).Normalize M).1 := by
      simp only [SolveStretchBody]
      rw [if_neg h]
      simp [setIdx2]
    have h2 : (SolveStretchBody M s i).m_ps (i + 1)
        = s.m_ps (i + 1) + (s.m_tuning.stretchStiffness
            * (s.m_ims (i + 1) / (s.m_ims i + s.m_ims (i + 1)))
            * (s.m_Ls i - ((s.m_ps (i + 1) - s.m_ps i).Normalize M).2))
            • ((s.m_ps (i + 1) - s.m_ps i).Normalize M).1 := by
      simp only [SolveStretchBody]
      rw [if_neg h]
      simp [setIdx2]
    refine ⟨h1, h2, ?_, ?_⟩
    · intro j hji hji1
      simp only [SolveStretchBody]
      rw [if_neg h]
      simp [setIdx2, hji, hji1]
    · rw [h1, h2]
      rw [b2Vec2.eq_iff]
      constructor <;>
        · simp only [b2Vec2.add_x, b2Vec2.add_y, b2Vec2.sub_x, b2Vec2.sub_y,
            b2Vec2.smul_x, b2Vec2.smul_y, b2Vec2.zero_x, b2Vec2.zero_y]
          field_simp
          ring

/-- Witness for C5 at a concrete rope (both inverse masses 1, constraint 0). -/
theorem C5_stretch_mass_weighting_witness :
    ropeSample.m_ims 0 + ropeSample.m_ims 1 ≠ 0
    ∧ ropeSample.m_ims 1
          • ((SolveStretchBody mathSample ropeSample 0).m_ps 0 - ropeSample.m_ps 0)
        + ropeSample.m_ims 0
          • ((SolveStretchBody mathSample ropeSample 0).m_ps 1 - ropeSample.m_ps 1)
      = b2Vec2.zero :=
  ⟨by simp [ropeSample],
    ((C5_stretch_mass_weighting mathSample ropeSample 0).2 (by simp [ropeSample])).2.2.2⟩

theorem b2Dot_self_nonneg (a : b2Vec2) : 0 ≤ b2Dot a a :=
  add_nonneg (mul_self_nonneg a.x) (mul_self_nonneg a.y)

/-- C1 as stated is refuted at an explicit input: with the XPBD bending model
and `bendHertz = 0` (a tuning the claim quantifies over), at `dt = 1 ≠ 0`,
bend triple 0 of `ropeHertzZero` passes both skip guards
(`L1sqr·L2sqr ≠ 0` and `W ≠ 0`), yet the divisor `spring·dt·dt` of the
compliance `alpha = 1 / (spring·dt·dt)` is zero: the skip guards alone do not
make every divisor in the solvers nonzero. -/
theorem C1_counterexample :
    bendL1sqr ropeHertzZero 0 * bendL2sqr ropeHertzZero 0 ≠ 0
    ∧ bendW ropeHertzZero 0 ≠ 0
    ∧ (1 : ℚ) ≠ 0
    ∧ bendSpring ropeHertzZero 0 * 1 * 1 = 0 := by
  refine ⟨?_, ?_, one_ne_zero, ?_⟩
  · simp [bendL1sqr, bendL2sqr, bendD1, bendD2, b2Vec2.LengthSquared,
      ropeHertzZero, ropeSample]
  · norm_num [bendW, bendJ1, bendJ2, bendJ3, bendJd1, bendJd2, bendD1, bendD2,
      bendL1sqr, bendL2sqr, b2Vec2.Skew, b2Dot, b2Vec2.LengthSquared,
      ropeHertzZero, ropeSample]
  · simp [bendSpring, bendOmega, ropeHertzZero, ropeSample, tuningSample]

/-- C1 (amended): degenerate bend triples and fully pinned stretch pairs are
skipped, leaving the state unmodified; and — additionally assuming nonnegative
inverse masses, `dt > 0`, a positive bend frequency and a nonnegative bend
damping ratio (a zero bend frequency makes the XPBD compliance divisor zero,
so the frequency assumption is necessary) — once the skip guards pass, every divisor in the
solvers is nonzero: `L1sqr`, `L2sqr`, `W`, the XPBD compliance denominator
`spring·dt·dt`, `dt` itself, and the XPBD impulse denominator `Ws`. -/
theorem C1_divisors_nonzero (M : B2Math) (s : b2Rope) (dt : ℚ) (i : ℕ)
    (him1 : 0 ≤ s.m_ims i) (him2 : 0 ≤ s.m_ims (i + 1))
    (him3 : 0 ≤ s.m_ims (i + 2)) (hdt : 0 < dt)
    (hz : 0 < s.m_tuning.bendHertz) (hbd : 0 ≤ s.m_tuning.bendDamping) :
    (s.m_ims i + s.m_ims (i + 1) = 0 → SolveStretchBody M s i = s)
    ∧ (bendL1sqr s i * bendL2sqr s i = 0 →
        SolveBend_PBD_AngleBody M s i = s
        ∧ SolveBend_XPBD_AngleBody M dt s i = s
        ∧ ApplyBendForcesBody M dt s i = s)
    ∧ (bendL1sqr s i * bendL2sqr s i ≠ 0 → bendW s i = 0 →
        SolveBend_PBD_AngleBody M s i = s
        ∧ SolveBend_XPBD_AngleBody M dt s i = s
        ∧ ApplyBendForcesBody M dt s i = s)
    ∧ (bendL1sqr s i * bendL2sqr s i ≠ 0 → bendW s i ≠ 0 →
        bendL1sqr s i ≠ 0 ∧ bendL2sqr s i ≠ 0 ∧ bendW s i ≠ 0
        ∧ bendSpring s i * dt * dt ≠ 0 ∧ dt ≠ 0 ∧ xpbdWs s dt i ≠ 0) := by
  refine ⟨?_, ?_, ?_, ?_⟩
  · intro h
    simp only [SolveStretchBody]
    rw [if_pos h]
  · intro h
    refine ⟨?_, ?_, ?_⟩
    · simp only [SolveBend_PBD_AngleBody]; rw [if_pos h]
    · simp only [SolveBend_XPBD_AngleBody]; rw [if_pos h]
    · simp only [ApplyBendForcesBody]; rw [if_pos h]
  · intro h hW
    refine ⟨?_, ?_, ?_⟩
    · simp only [SolveBend_PBD_AngleBody]; rw [if_neg h, if_pos hW]
    · simp only [SolveBend_XPBD_AngleBody]; rw [if_neg h, if_pos hW]
    · simp only [ApplyBendForcesBody]; rw [if_neg h, if_pos hW]
  · intro h hW
    obtain ⟨hL1, hL2⟩ := mul_ne_zero_iff.mp h
    have hWnonneg : 0 ≤ bendW s i := by
      unfold bendW
      have d1 := b2Dot_self_nonneg (bendJ1 s i)
      have d2 := b2Dot_self_nonneg (bendJ2 s i)
      have d3 := b2Dot_self_nonneg (bendJ3 s i)
      have := mul_nonneg him1 d1
      have := mul_nonneg him2 d2
      have := mul_nonneg him3 d3
      linarith
    have hWpos : 0 < bendW s i := lt_of_le_of_ne hWnonneg (Ne.symm hW)
    have homega : 0 < bendOmega s := by
      unfold bendOmega
      have := b2_pi_pos
      positivity
    have hspring : 0 < bendSpring s i := by
      unfold bendSpring
      have h1 : 0 < 1 / bendW s i := by positivity
      positivity
    have hsd : 0 < bendSpring s i * dt * dt :=
      mul_pos (mul_pos hspring hdt) hdt
    have halpha : 0 < xpbdAlpha s dt i := by
      unfold xpbdAlpha
      positivity
    have hdamper : 0 ≤ bendDamper s i := by
      unfold bendDamper
      have h1 : 0 ≤ 1 / bendW s i := by positivity
      positivity
    have hbeta : 0 ≤ xpbdBeta s dt i := by
      unfold xpbdBeta
      positivity
    have hWs : 0 < xpbdWs s dt i := by
      unfold xpbdWs
      have hq : 0 ≤ xpbdAlpha s dt i * xpbdBeta s dt i / dt :=
        div_nonneg (mul_nonneg halpha.le hbeta) hdt.le
      nlinarith
    exact ⟨hL1, hL2, hW, ne_of_gt hsd, ne_of_gt hdt, ne_of_gt hWs⟩

/-- Witness for C1 (amended) at a concrete nondegenerate rope, `dt = 1`. -/
theorem C1_divisors_nonzero_witness :
    (0 ≤ ropeSample.m_ims 0 ∧ (0 : ℚ) < 1 ∧ 0 < ropeSample.m_tuning.bendHertz
      ∧ 0 ≤ ropeSample.m_tuning.bendDamping)
    ∧ (bendL1sqr ropeSample 0 ≠ 0 ∧ bendL2sqr ropeSample 0 ≠ 0
      ∧ bendW ropeSample 0 ≠ 0 ∧ bendSpring ropeSample 0 * 1 * 1 ≠ 0
      ∧ (1 : ℚ) ≠ 0 ∧ xpbdWs ropeSample 1 0 ≠ 0) := by
  have hg1 : bendL1sqr ropeSample 0 * bendL2sqr ropeSample 0 ≠ 0 := by
    simp [bendL1sqr, bendL2sqr, bendD1, bendD2, b2Vec2.LengthSquared, ropeSample]
  have hg2 : bendW ropeSample 0 ≠ 0 := by
    norm_num [bendW, bendJ1, bendJ2, bendJ3, bendJd1, bendJd2, bendD1, bendD2,
      bendL1sqr, bendL2sqr, b2Vec2.Skew, b2Dot, b2Vec2.LengthSquared, ropeSample]
  refine ⟨⟨by simp [ropeSample], by norm_num,
      by simp [ropeSample, tuningSample], by simp [ropeSample, tuningSample]⟩, ?_⟩
  exact (C1_divisors_nonzero mathSample ropeSample 1 0
    (by simp [ropeSample]) (by simp [ropeSample]) (by simp [ropeSample])
    (by norm_num) (by simp [ropeSample, tuningSample])
    (by simp [ropeSample, tuningSample])).2.2.2 hg1 hg2

/-- A fold of a constant function over `List.range n` is an `n`-fold
iterate. -/
theorem foldl_range_const_eq_iterate {α : Type} (f : α → α) (n : ℕ) (s : α) :
    (List.range n).foldl (fun t _ => f t) s = f^[n] s := by
  induction n with
  | zero => rfl
  | succ n ih =>
      rw [List.range_succ, List.foldl_append, ih, List.foldl_cons, List.foldl_nil,
        Function.iterate_succ_apply']

/-- C4: with `dt ≠ 0`, `Step` performs exactly the documented sequence:
(1) velocity prediction (gravity plus exponential damping on dynamic
particles, kinematic drive on pinned ones); (2) the bend-force pass — run only
under the continuous-force model, before integration, and mutating velocities
only; (3) `p += dt·v`; (4) reset of every bend multiplier; (5) exactly
`iterations` sweeps of the dispatched bend solver (none for the other models)
followed always by the stretch solver; (6) `v = (p - p0)/dt` and `p0 = p`. -/
theorem C4_step_sequence (M : B2Math) (s : b2Rope) (dt : ℚ) (it : ℕ)
    (pos : b2Vec2) (h : dt ≠ 0) :
    Step M s dt it pos
      = reconstructVelocities
          (solveLoop M (resetBendLambdas (integratePositions
            (if s.m_tuning.bendingModel = b2BendingModel.b2_forceAngleBendingModel
              then ApplyBendForces M (predictVelocities M s dt pos) dt
              else predictVelocities M s dt pos) dt)) dt it) dt
    ∧ solveLoop M s dt it = (fun t => solveOnce M t dt)^[it] s
    ∧ solveOnce M s dt
        = SolveStretch M
            (if s.m_tuning.bendingModel = b2BendingModel.b2_pbdAngleBendingModel
              then SolveBend_PBD_Angle M s
              else if s.m_tuning.bendingModel = b2BendingModel.b2_xpbdAngleBendingModel
                then SolveBend_XPBD_Angle M s dt
                else s)
    ∧ (ApplyBendForces M s dt).m_ps = s.m_ps
    ∧ (ApplyBendForces M s dt).m_p0s = s.m_p0s
    ∧ (ApplyBendForces M s dt).m_ims = s.m_ims
    ∧ (ApplyBendForces M s dt).m_Ls = s.m_Ls
    ∧ (ApplyBendForces M s dt).m_as = s.m_as
    ∧ (ApplyBendForces M s dt).m_bendingLambdas = s.m_bendingLambdas
    ∧ (ApplyBendForces M s dt).m_bindPositions = s.m_bindPositions
    ∧ (ApplyBendForces M s dt).m_tuning = s.m_tuning
    ∧ (predictVelocities M s dt pos).m_vs = (fun i =>
        if s.m_ims i > 0
          then M.exp (-dt * s.m_tuning.damping) • (s.m_vs i + dt • s.m_gravity)
          else (1 / dt) • (s.m_bindPositions i + pos - s.m_p0s i))
    ∧ (integratePositions s dt).m_ps = (fun i => s.m_ps i + dt • s.m_vs i)
    ∧ (resetBendLambdas s).m_bendingLambdas = (fun _ => 0)
    ∧ (reconstructVelocities s dt).m_vs = (fun i => (1 / dt) • (s.m_ps i - s.m_p0s i))
    ∧ (reconstructVelocities s dt).m_p0s = (fun i => s.m_ps i) := by
  refine ⟨Step_eq M s dt it pos h, foldl_range_const_eq_iterate _ it s, rfl,
    ApplyBendForces_ps M s dt, ApplyBendForces_p0s M s dt, ApplyBendForces_ims M s dt,
    ApplyBendForces_Ls M s dt, ApplyBendForces_as M s dt,
    ApplyBendForces_lambdas M s dt, ApplyBendForces_binds M s dt,
    ApplyBendForces_tuning M s dt, rfl, rfl, rfl, rfl, rfl⟩

/-- Witness for C4 at concrete inputs (`dt = 1`, two iterations). -/
theorem C4_step_sequence_witness :
    (1 : ℚ) ≠ 0
    ∧ Step mathSample ropeSample 1 2 b2Vec2.zero
      = reconstructVelocities
          (solveLoop mathSample (resetBendLambdas (integratePositions
            (if ropeSample.m_tuning.bendingModel
                = b2BendingModel.b2_forceAngleBendingModel
              then ApplyBendForces mathSample
                (predictVelocities mathSample ropeSample 1 b2Vec2.zero) 1
              else predictVelocities mathSample ropeSample 1 b2Vec2.zero) 1)) 1 2) 1 :=
  ⟨one_ne_zero,
    (C4_step_sequence mathSample ropeSample 1 2 b2Vec2.zero one_ne_zero).1⟩

/-- C2: for every bend triple passing the degeneracy guards, one XPBD
iteration computes exactly `B = C + α·λ + α·β·Ċ` with
`α = 1/(spring·dt²)`, `β = dt²·damper`, denominator
`Ws = (1 + α·β/dt)·W + α` and impulse `Δλ = -B/Ws`, applies
`p_k += m_k·Δλ·J_k` to exactly the three particles of the triple and
accumulates `λ += Δλ`; and the velocities used in `Ċ` are the state's
current (pre-integration) velocities, which no pass of the iteration loop
ever updates — so they are read fresh each iteration but stay fixed across
all iterations of one step. -/
theorem C2_xpbd_iteration (M : B2Math) (s : b2Rope) (dt : ℚ) (i n : ℕ)
    (h1 : bendL1sqr s i * bendL2sqr s i ≠ 0) (h2 : bendW s i ≠ 0) :
    xpbdImpulse M s dt i
      = -(bendC M s i + xpbdAlpha s dt i * s.m_bendingLambdas i
          + xpbdAlpha s dt i * xpbdBeta s dt i * bendCdot s i)
        / ((1 + xpbdAlpha s dt i * xpbdBeta s dt i / dt) * bendW s i
          + xpbdAlpha s dt i)
    ∧ xpbdAlpha s dt i = 1 / (bendSpring s i * dt * dt)
    ∧ xpbdBeta s dt i = dt * dt * bendDamper s i
    ∧ bendCdot s i = b2Dot (bendJ1 s i) (s.m_vs i)
        + b2Dot (bendJ2 s i) (s.m_vs (i + 1)) + b2Dot (bendJ3 s i) (s.m_vs (i + 2))
    ∧ (SolveBend_XPBD_AngleBody M dt s i).m_ps i
        = s.m_ps i + (s.m_ims i * xpbdImpulse M s dt i) • bendJ1 s i
    ∧ (SolveBend_XPBD_AngleBody M dt s i).m_ps (i + 1)
        = s.m_ps (i + 1) + (s.m_ims (i + 1) * xpbdImpulse M s dt i) • bendJ2 s i
    ∧ (SolveBend_XPBD_AngleBody M dt s i).m_ps (i + 2)
        = s.m_ps (i + 2) + (s.m_ims (i + 2) * xpbdImpulse M s dt i) • bendJ3 s i
    ∧ (SolveBend_XPBD_AngleBody M dt s i).m_bendingLambdas i
        = s.m_bendingLambdas i + xpbdImpulse M s dt i
    ∧ (∀ j, j ≠ i → (SolveBend_XPBD_AngleBody M dt s i).m_bendingLambdas j
        = s.m_bendingLambdas j)
    ∧ (∀ j, j ≠ i → j ≠ i + 1 → j ≠ i + 2 →
        (SolveBend_XPBD_AngleBody M dt s i).m_ps j = s.m_ps j)
    ∧ (SolveBend_XPBD_AngleBody M dt s i).m_vs = s.m_vs
    ∧ (SolveBend_XPBD_Angle M s dt).m_vs = s.m_vs
    ∧ (solveLoop M s dt n).m_vs = s.m_vs := by
  refine ⟨rfl, rfl, rfl, rfl, ?_, ?_, ?_, ?_, ?_, ?_,
    SolveBend_XPBD_AngleBody_vs M dt s i, SolveBend_XPBD_Angle_vs M s dt,
    solveLoop_vs M s dt n⟩
  · simp only [SolveBend_XPBD_AngleBody]
    rw [if_neg h1, if_neg h2]
    simp [setIdx3]
  · simp only [SolveBend_XPBD_AngleBody]
    rw [if_neg h1, if_neg h2]
    simp [setIdx3]
  · simp only [SolveBend_XPBD_AngleBody]
    rw [if_neg h1, if_neg h2]
    simp [setIdx3]
  · simp only [SolveBend_XPBD_AngleBody]
    rw [if_neg h1, if_neg h2]
    simp
  · intro j hj
    simp only [SolveBend_XPBD_AngleBody]
    rw [if_neg h1, if_neg h2]
    simp [hj]
  · intro j hj hj1 hj2
    simp only [SolveBend_XPBD_AngleBody]
    rw [if_neg h1, if_neg h2]
    simp [setIdx3, hj, hj1, hj2]

/-- Witness for C2 at a concrete nondegenerate rope, `dt = 1`. -/
theorem C2_xpbd_iteration_witness :
    (bendL1sqr ropeSample 0 * bendL2sqr ropeSample 0 ≠ 0
      ∧ bendW ropeSample 0 ≠ 0)
    ∧ (SolveBend_XPBD_AngleBody mathSample 1 ropeSample 0).m_bendingLambdas 0
        = ropeSample.m_bendingLambdas 0 + xpbdImpulse mathSample ropeSample 1 0
    ∧ (solveLoop mathSample ropeSample 1 2).m_vs = ropeSample.m_vs := by
  have hg1 : bendL1sqr ropeSample 0 * bendL2sqr ropeSample 0 ≠ 0 := by
    simp [bendL1sqr, bendL2sqr, bendD1, bendD2, b2Vec2.LengthSquared, ropeSample]
  have hg2 : bendW ropeSample 0 ≠ 0 := by
    norm_num [bendW, bendJ1, bendJ2, bendJ3, bendJd1, bendJd2, bendD1, bendD2,
      bendL1sqr, bendL2sqr, b2Vec2.Skew, b2Dot, b2Vec2.LengthSquared, ropeSample]
  have h := C2_xpbd_iteration mathSample ropeSample 1 0 2 hg1 hg2
  exact ⟨⟨hg1, hg2⟩, h.2.2.2.2.2.2.2.1, h.2.2.2.2.2.2.2.2.2.2.2.2⟩

theorem b2Vec2.smul_smul (a b : ℚ) (v : b2Vec2) : a • (b • v) = (a * b) • v := by
  rw [b2Vec2.eq_iff]
  constructor <;> simp <;> ring

theorem b2Vec2.one_smul (v : b2Vec2) : (1 : ℚ) • v = v := by
  rw [b2Vec2.eq_iff]
  constructor <;> simp

/-- The state reached inside `Step` after velocity prediction and the optional
continuous bend-force pass (phases 1–2), before position integration. -/
def preIntegrationState (M : B2Math) (s : b2Rope) (dt : ℚ) (pos : b2Vec2) : b2Rope :=
  if s.m_tuning.bendingModel = b2BendingModel.b2_forceAngleBendingModel
    then ApplyBendForces M (predictVelocities M s dt pos) dt
    else predictVelocities M s dt pos

/-- `Step_eq` restated through `preIntegrationState`. -/
theorem Step_eq' (M : B2Math) (s : b2Rope) (dt : ℚ) (it : ℕ) (pos : b2Vec2)
    (h : dt ≠ 0) :
    Step M s dt it pos =
      reconstructVelocities
        (solveLoop M
          (resetBendLambdas (integratePositions (preIntegrationState M s dt pos) dt))
          dt it) dt :=
  Step_eq M s dt it pos h

@[simp] theorem preIntegrationState_ims (M : B2Math) (s : b2Rope) (dt : ℚ)
    (pos : b2Vec2) : (preIntegrationState M s dt pos).m_ims = s.m_ims := by
  unfold preIntegrationState
  split <;> simp

@[simp] theorem preIntegrationState_p0s (M : B2Math) (s : b2Rope) (dt : ℚ)
    (pos : b2Vec2) : (preIntegrationState M s dt pos).m_p0s = s.m_p0s := by
  unfold preIntegrationState
  split <;> simp

@[simp] theorem preIntegrationState_binds (M : B2Math) (s : b2Rope) (dt : ℚ)
    (pos : b2Vec2) :
    (preIntegrationState M s dt pos).m_bindPositions = s.m_bindPositions := by
  unfold preIntegrationState
  split <;> simp

theorem preIntegrationState_ps_apply (M : B2Math) (s : b2Rope) (dt : ℚ)
    (pos : b2Vec2) (i : ℕ) :
    (preIntegrationState M s dt pos).m_ps i = s.m_ps i := by
  unfold preIntegrationState
  split <;> simp

/-- A kinematic particle's predicted velocity is the drive velocity, also
after the optional bend-force pass (whose corrections are scaled by the
particle's zero inverse mass). -/
theorem preIntegrationState_vs_kinematic (M : B2Math) (s : b2Rope) (dt : ℚ)
    (pos : b2Vec2) (i : ℕ) (him : s.m_ims i = 0) :
    (preIntegrationState M s dt pos).m_vs i
      = (1 / dt) • (s.m_bindPositions i + pos - s.m_p0s i) := by
  unfold preIntegrationState
  split
  · rw [ApplyBendForces_vs_of_im_zero _ _ _ i (by rw [predictVelocities_ims]; exact him)]
    simp [predictVelocities, him]
  · simp [predictVelocities, him]

/-- After position integration, a kinematic particle whose positions satisfy
the step-entry invariant `p = p0` sits exactly at `bind + anchorOffset`. -/
theorem integrate_kinematic_ps (M : B2Math) (s : b2Rope) (dt : ℚ) (pos : b2Vec2)
    (i : ℕ) (hdt : dt ≠ 0) (him : s.m_ims i = 0) (hp : s.m_ps i = s.m_p0s i) :
    (integratePositions (preIntegrationState M s dt pos) dt).m_ps i
      = s.m_bindPositions i + pos := by
  show (preIntegrationState M s dt pos).m_ps i
      + dt • (preIntegrationState M s dt pos).m_vs i = s.m_bindPositions i + pos
  rw [preIntegrationState_ps_apply, preIntegrationState_vs_kinematic M s dt pos i him,
    b2Vec2.smul_smul, mul_one_div_cancel hdt, b2Vec2.one_smul, hp]
  rw [b2Vec2.eq_iff]
  constructor <;> simp

/-- C3: for every step with `dt ≠ 0` from a state satisfying the step-entry
invariant `p = p0` (established by `Initialize` and re-established at the end
of every step), a kinematic particle (`im = 0`) ends the step with its
position — and its refreshed previous position — exactly at
`bind + anchorOffset`, its reconstructed velocity is exactly the drive
velocity, and its predicted velocity is independent of gravity; moreover
every step ends with `p0 = p` for all particles, and `initializeCore`
establishes `p = p0`. -/
theorem C3_kinematic_drive (M : B2Math) (s : b2Rope) (dt : ℚ) (it : ℕ)
    (pos : b2Vec2) (i : ℕ) (d : b2RopeDef)
    (hdt : dt ≠ 0) (him : s.m_ims i = 0) (hp : s.m_ps i = s.m_p0s i) :
    (Step M s dt it pos).m_ps i = s.m_bindPositions i + pos
    ∧ (Step M s dt it pos).m_p0s i = s.m_bindPositions i + pos
    ∧ (Step M s dt it pos).m_vs i
        = (1 / dt) • (s.m_bindPositions i + pos - s.m_p0s i)
    ∧ (∀ g1 g2 : b2Vec2,
        (predictVelocities M { s with m_gravity := g1 } dt pos).m_vs i
          = (predictVelocities M { s with m_gravity := g2 } dt pos).m_vs i)
    ∧ (∀ j, (Step M s dt it pos).m_p0s j = (Step M s dt it pos).m_ps j)
    ∧ (initializeCore M d).m_ps = (initializeCore M d).m_p0s := by
  have hTims : (resetBendLambdas
      (integratePositions (preIntegrationState M s dt pos) dt)).m_ims i = 0 := by
    simp [him]
  have hL : (solveLoop M
      (resetBendLambdas (integratePositions (preIntegrationState M s dt pos) dt))
      dt it).m_ps i = s.m_bindPositions i + pos := by
    rw [solveLoop_ps_of_im_zero M _ dt it i hTims]
    exact integrate_kinematic_ps M s dt pos i hdt him hp
  have hLp0 : (solveLoop M
      (resetBendLambdas (integratePositions (preIntegrationState M s dt pos) dt))
      dt it).m_p0s i = s.m_p0s i := by
    simp
  refine ⟨?_, ?_, ?_, ?_, ?_, rfl⟩
  · rw [Step_eq' M s dt it pos hdt]
    exact hL
  · rw [Step_eq' M s dt it pos hdt]
    exact hL
  · rw [Step_eq' M s dt it pos hdt]
    show (1 / dt) • (_ - _) = _
    rw [hL, hLp0]
  · intro g1 g2
    simp [predictVelocities, him]
  · intro j
    rw [Step_eq' M s dt it pos hdt]
    rfl

/-- Witness for C3 at a concrete rope with particle 0 pinned, `dt = 1`,
anchor offset `(2, 3)`. -/
theorem C3_kinematic_drive_witness :
    ((1 : ℚ) ≠ 0 ∧ ropePinned.m_ims 0 = 0
      ∧ ropePinned.m_ps 0 = ropePinned.m_p0s 0)
    ∧ (Step mathSample ropePinned 1 2 ⟨2, 3⟩).m_ps 0
        = ropePinned.m_bindPositions 0 + ⟨2, 3⟩ :=
  ⟨⟨one_ne_zero, rfl, rfl⟩,
    (C3_kinematic_drive mathSample ropePinned 1 2 ⟨2, 3⟩ 0 defThree
      one_ne_zero rfl rfl).1⟩
